import Mathlib

/-!
Verification development for the access-resolution and progressive-unlocking
subsystem of an online-course platform (Django application).

The embedding mirrors `myApp/utils/access.py`, the `CourseAccess` model helpers
in `myApp/models.py`, and the lesson-sequencing / lesson-completion / gift
redemption views in `myApp/views.py`.  Django querysets over the relational
store are modelled as Lean lists kept in the default queryset order of each
model: `CourseAccess` carries `Meta.ordering = ['-granted_at']`, so the
`accesses` list is most-recently-granted first and record creation prepends.
Row mutation (`obj.save()`) is modelled as replacement by primary key.
Timestamps (`timezone.now()`) are passed explicitly as natural numbers.
-/

namespace Fluentory

/-- `CourseAccess.STATUS_CHOICES` from `myApp/models.py`. -/
inductive AccessStatus where
  | unlocked
  | locked
  | revoked
  | expired
  | pending
deriving DecidableEq, Repr

/-- `CourseAccess.ACCESS_TYPES` from `myApp/models.py`. -/
inductive AccessType where
  | purchase
  | manual
  | cohort
  | subscription
  | bundle
deriving DecidableEq, Repr

/-- The human-readable labels of `ACCESS_TYPES` (to model Django's generated
`get_access_type_display`). -/
def AccessType.display : AccessType → String
  | .purchase => "Purchase"
  | .manual => "Manual (Admin-granted)"
  | .cohort => "Cohort/Group"
  | .subscription => "Subscription/Membership"
  | .bundle => "Bundle Purchase"

/-- `Course.STATUS_CHOICES` from `myApp/models.py`. -/
inductive CourseStatus where
  | active
  | locked
  | comingSoon
deriving DecidableEq, Repr

/-- `Course.VISIBILITY_CHOICES` from `myApp/models.py` (`private` is a Lean
keyword, rendered as `priv`). -/
inductive Visibility where
  | public
  | membersOnly
  | hidden
  | priv
deriving DecidableEq, Repr

/-- `Bundle.BUNDLE_TYPES` from `myApp/models.py`. -/
inductive BundleType where
  | fixed
  | pickYourOwn
  | tiered
deriving DecidableEq, Repr

/-- `GiftPurchase.STATUS_CHOICES` from `myApp/models.py`. -/
inductive GiftStatus where
  | pending
  | sent
  | redeemed
  | expired
  | cancelled
deriving DecidableEq, Repr

/-- `UserProgress.STATUS_CHOICES` from `myApp/models.py`. -/
inductive ProgressStatus where
  | notStarted
  | inProgress
  | completed
deriving DecidableEq, Repr

/-- A Django auth user, as far as this subsystem reads it
(`request.user.is_authenticated`, `.id`, `.email`, `.username`). -/
structure User where
  id : Nat
  isAuthenticated : Bool
  email : String
  username : String
deriving DecidableEq, Repr

/-- The `CourseAccess` model: one row per grant attempt.  Foreign keys are
stored as primary-key ids (`Option` for nullable columns). -/
structure AccessRecord where
  id : Nat
  user : Nat
  course : Nat
  accessType : AccessType
  status : AccessStatus
  bundlePurchase : Option Nat
  coursePurchase : Option Nat
  cohort : Option Nat
  purchaseId : Option String
  grantedAt : Nat
  grantedBy : Option Nat
  expiresAt : Option Nat
  revokedAt : Option Nat
  revokedBy : Option Nat
  revocationReason : String
  notes : String
deriving DecidableEq, Repr

/-- The `Course` model, restricted to the fields this subsystem reads.
`prerequisiteCourses` is the self-referential many-to-many, as a list of
course ids. -/
structure Course where
  id : Nat
  name : String
  status : CourseStatus
  visibility : Visibility
  prerequisiteCourses : List Nat
deriving DecidableEq, Repr

/-- The `Lesson` model, restricted to the fields the sequencer reads
(`Meta.ordering = ['order', 'id']`; `order` is an `IntegerField`). -/
structure Lesson where
  id : Nat
  course : Nat
  order : Int
deriving DecidableEq, Repr

/-- The `LessonQuiz` model (one-to-one with a lesson). -/
structure LessonQuiz where
  id : Nat
  lesson : Nat
  isRequired : Bool
  passingScore : Int
deriving DecidableEq, Repr

/-- The `LessonQuizAttempt` model. -/
structure LessonQuizAttempt where
  user : Nat
  quiz : Nat
  passed : Bool
deriving DecidableEq, Repr

/-- The `UserProgress` model (unique together on `(user, lesson)`),
restricted to the fields the completion write touches. -/
structure UserProgress where
  user : Nat
  lesson : Nat
  status : ProgressStatus
  completed : Bool
  completedAt : Option Nat
  progressPercentage : Int
deriving DecidableEq, Repr

/-- The `Bundle` model (`courses` is the many-to-many as course ids). -/
structure Bundle where
  id : Nat
  name : String
  bundleType : BundleType
  courses : List Nat
deriving DecidableEq, Repr

/-- The `BundlePurchase` model (`purchase_id` is a non-null `CharField`,
blank allowed; `selected_courses` is the many-to-many for pick-your-own). -/
structure BundlePurchase where
  id : Nat
  user : Nat
  bundle : Nat
  purchaseId : String
  selectedCourses : List Nat
deriving DecidableEq, Repr

/-- The `Cohort` model, as far as access display reads it. -/
structure Cohort where
  id : Nat
  name : String
deriving DecidableEq, Repr

/-- The `CoursePurchase` model (`provider` and `provider_id` are blank-able
`CharField`s, so the empty string plays Python's falsy role). -/
structure CoursePurchase where
  id : Nat
  user : Nat
  course : Nat
  provider : String
  providerId : String
deriving DecidableEq, Repr

/-- The `GiftPurchase` model.  The schema allows `course_purchase` to be
null; the redemption flow under study presupposes the linked purchase, so it
is embedded directly. -/
structure GiftPurchase where
  purchaser : Nat
  course : Nat
  coursePurchase : CoursePurchase
  recipientEmail : String
  status : GiftStatus
  giftToken : String
  expiresAt : Option Nat
  redeemedAt : Option Nat
  recipientUser : Option Nat
deriving DecidableEq, Repr

/-- The relational store.  `accesses` is kept in the default queryset order
of `CourseAccess` (`-granted_at`, i.e. most recently granted first); `nextId`
is the next `CourseAccess` primary key the database would assign. -/
structure Db where
  accesses : List AccessRecord
  nextId : Nat
  courses : List Course
  lessons : List Lesson
  progresses : List UserProgress
  quizzes : List LessonQuiz
  quizAttempts : List LessonQuizAttempt
  bundles : List Bundle
  bundlePurchases : List BundlePurchase
  cohorts : List Cohort
  coursePurchases : List CoursePurchase
  users : List User
deriving DecidableEq, Repr

/-- `CourseAccess.get_source_display` (`myApp/models.py`): human-readable
source of access, resolving foreign keys through the store. -/
def getSourceDisplay (db : Db) (a : AccessRecord) : String :=
  match a.bundlePurchase with
  | some bpId =>
    "Bundle: " ++
      (match db.bundlePurchases.find? (fun b => decide (b.id = bpId)) with
       | some bp =>
         (match db.bundles.find? (fun b => decide (b.id = bp.bundle)) with
          | some bundle => bundle.name
          | none => "")
       | none => "")
  | none =>
    match a.coursePurchase with
    | some cpId =>
      "Purchase: " ++
        (match db.coursePurchases.find? (fun p => decide (p.id = cpId)) with
         | some cp => if cp.providerId ≠ "" then cp.providerId else toString cp.id
         | none => "")
    | none =>
      match a.cohort with
      | some coId =>
        "Cohort: " ++
          (match db.cohorts.find? (fun co => decide (co.id = coId)) with
           | some co => co.name
           | none => "")
      | none =>
        if a.accessType = AccessType.manual then
          "Manual (by " ++
            (match a.grantedBy with
             | some uid =>
               (match db.users.find? (fun us => decide (us.id = uid)) with
                | some us => us.username
                | none => "Admin")
             | none => "Admin") ++ ")"
        else
          match a.purchaseId with
          | some pid => if pid ≠ "" then "Purchase: " ++ pid else a.accessType.display
          | none => a.accessType.display

/-- The exclusion filter of `has_course_access`:
`Q(expires_at__isnull=False) & Q(expires_at__lt=now)`. -/
def expiredBefore (now : Nat) (r : AccessRecord) : Bool :=
  match r.expiresAt with
  | some e => decide (e < now)
  | none => false

/-- A record passing the active query of `has_course_access`
(`status='unlocked'` minus the expiry exclusion). -/
def isActiveAt (now : Nat) (r : AccessRecord) : Bool :=
  decide (r.status = AccessStatus.unlocked) && !(expiredBefore now r)

/-- `CourseAccess.objects.filter(user=user, course=course)` in default
queryset order. -/
def pairRecords (db : Db) (u c : Nat) : List AccessRecord :=
  db.accesses.filter (fun r => decide (r.user = u ∧ r.course = c))

/-- The `active_accesses` queryset of `has_course_access`. -/
def activeRecords (now : Nat) (db : Db) (u c : Nat) : List AccessRecord :=
  (pairRecords db u c).filter (isActiveAt now)

/-- `obj.save()` on a `CourseAccess` row: replace the row with the same
primary key. -/
def saveRecord (db : Db) (a : AccessRecord) : Db :=
  { db with accesses := db.accesses.map (fun r => if r.id = a.id then a else r) }

/-- The result of `has_course_access`, together with the store it leaves
behind (the resolver's only write is the lazy-expiry mutation). -/
structure ResolveResult where
  granted : Bool
  record : Option AccessRecord
  reason : String
  db : Db
deriving DecidableEq, Repr

/-- `has_course_access(user, course)` from `myApp/utils/access.py`. -/
def hasCourseAccess (now : Nat) (user : User) (courseId : Nat) (db : Db) : ResolveResult :=
  if !user.isAuthenticated then
    ⟨false, none, "Not authenticated", db⟩
  else
    match activeRecords now db user.id courseId with
    | access :: _ =>
      ⟨true, some access, "Access granted via " ++ getSourceDisplay db access, db⟩
    | [] =>
      match pairRecords db user.id courseId with
      | [] => ⟨false, none, "No access found", db⟩
      | anyAccess :: _ =>
        if anyAccess.status = AccessStatus.expired then
          ⟨false, some anyAccess, "Access has expired", db⟩
        else if anyAccess.status = AccessStatus.revoked then
          ⟨false, some anyAccess,
            "Access revoked: " ++
              (if anyAccess.revocationReason = "" then "No reason provided"
               else anyAccess.revocationReason), db⟩
        else
          match anyAccess.expiresAt with
          | some e =>
            if now > e then
              let a := { anyAccess with status := AccessStatus.expired }
              ⟨false, some a, "Access has expired", saveRecord db a⟩
            else ⟨false, none, "No access found", db⟩
          | none => ⟨false, none, "No access found", db⟩

/-- `grant_course_access` from `myApp/utils/access.py`: always creates a new
`unlocked` row (the function takes no `course_purchase` argument). -/
def grantCourseAccess (now : Nat) (u c : Nat) (accessType : AccessType)
    (grantedBy : Option Nat) (bundlePurchase : Option Nat) (cohort : Option Nat)
    (purchaseId : Option String) (expiresAt : Option Nat) (notes : String)
    (db : Db) : AccessRecord × Db :=
  let a : AccessRecord :=
    { id := db.nextId, user := u, course := c, accessType, status := AccessStatus.unlocked,
      bundlePurchase, coursePurchase := none, cohort, purchaseId,
      grantedAt := now, grantedBy, expiresAt, revokedAt := none, revokedBy := none,
      revocationReason := "", notes }
  (a, { db with accesses := a :: db.accesses, nextId := db.nextId + 1 })

/-- The queryset of `revoke_course_access`:
`CourseAccess.objects.filter(user=user, course=course, status='unlocked')`. -/
def unlockedRecords (db : Db) (u c : Nat) : List AccessRecord :=
  db.accesses.filter (fun r => decide (r.user = u ∧ r.course = c ∧ r.status = AccessStatus.unlocked))

/-- `revoke_course_access` from `myApp/utils/access.py`.  Returns the updated
row, or `none` when no unlocked row exists (the "nothing to revoke" signal). -/
def revokeCourseAccess (now : Nat) (u c : Nat) (revokedBy : Nat) (reason : String)
    (notes : String) (db : Db) : Option AccessRecord × Db :=
  match unlockedRecords db u c with
  | [] => (none, db)
  | a :: _ =>
    let a' : AccessRecord :=
      { a with status := AccessStatus.revoked, revokedAt := some now,
               revokedBy := some revokedBy, revocationReason := reason,
               notes := if notes ≠ "" then
                          (if a.notes ≠ "" then a.notes ++ "\n" ++ notes else notes)
                        else a.notes }
    (some a', saveRecord db a')

/-- `get_user_accessible_courses` from `myApp/utils/access.py`. -/
def getUserAccessibleCourses (now : Nat) (user : User) (db : Db) : List Course :=
  if !user.isAuthenticated then []
  else
    let activeIds :=
      (db.accesses.filter (fun r => decide (r.user = user.id) && isActiveAt now r)).map
        (fun r => r.course)
    db.courses.filter (fun c => decide (c.id ∈ activeIds))

/-- The three-bucket dict returned by `get_courses_by_visibility`. -/
structure CourseBuckets where
  myCourses : List Course
  availableToUnlock : List Course
  notAvailable : List Course
deriving DecidableEq, Repr

/-- `get_courses_by_visibility` from `myApp/utils/access.py`: a pure read-side
aggregation (the function performs no writes, hence no store is returned). -/
def getCoursesByVisibility (now : Nat) (user : User) (db : Db) : CourseBuckets :=
  if !user.isAuthenticated then
    { myCourses := [],
      availableToUnlock :=
        db.courses.filter (fun c => decide (c.visibility = Visibility.public ∧ c.status = CourseStatus.active)),
      notAvailable := [] }
  else
    let my := getUserAccessibleCourses now user db
    let visible := db.courses.filter (fun c =>
      decide ((c.visibility = Visibility.public ∨ c.visibility = Visibility.membersOnly ∨
               c.visibility = Visibility.hidden) ∧ c.status = CourseStatus.active))
    let available := visible.filter (fun c => !(my.any (fun m => decide (m.id = c.id))))
    { myCourses := my,
      availableToUnlock := available,
      notAvailable :=
        db.courses.filter (fun c => decide (c.visibility = Visibility.priv ∧ c.status = CourseStatus.active)) }

/-- `prereq.lessons.count()`. -/
def courseLessonCount (db : Db) (c : Nat) : Nat :=
  (db.lessons.filter (fun l => decide (l.course = c))).length

/-- `UserProgress.objects.filter(user=user, lesson__course=prereq, completed=True).count()`. -/
def completedLessonCountFor (db : Db) (u c : Nat) : Nat :=
  (db.progresses.filter (fun p =>
    decide (p.user = u ∧ p.completed = true) &&
      db.lessons.any (fun l => decide (l.id = p.lesson ∧ l.course = c)))).length

/-- `course.prerequisite_courses.all()` resolved through the course table. -/
def prereqCoursesOf (db : Db) (course : Course) : List Course :=
  course.prerequisiteCourses.filterMap (fun i => db.courses.find? (fun c => decide (c.id = i)))

/-- One iteration of the loop in `check_course_prerequisites`: resolve access
(threading the store, since the resolver may lazily expire), then compare the
prerequisite's lesson count with the user's completed count. -/
def prereqStep (now : Nat) (user : User) (acc : List Course × Db) (prereq : Course) :
    List Course × Db :=
  let res := hasCourseAccess now user prereq.id acc.2
  if !res.granted then (acc.1 ++ [prereq], res.db)
  else
    let total := courseLessonCount res.db prereq.id
    let completed := completedLessonCountFor res.db user.id prereq.id
    if 0 < total ∧ completed < total then (acc.1 ++ [prereq], res.db)
    else (acc.1, res.db)

/-- The result of `check_course_prerequisites`, with the store it leaves. -/
structure PrereqResult where
  met : Bool
  missing : List Course
  db : Db
deriving DecidableEq, Repr

/-- `check_course_prerequisites(user, course)` from `myApp/utils/access.py`. -/
def checkCoursePrerequisites (now : Nat) (user : User) (course : Course) (db : Db) :
    PrereqResult :=
  if course.prerequisiteCourses.isEmpty then ⟨true, [], db⟩
  else
    let r := (prereqCoursesOf db course).foldl (prereqStep now user) ([], db)
    ⟨decide (r.1.length = 0), r.1, r.2⟩

/-- The bundle's resolved course set in `grant_bundle_access` (fixed list /
purchaser's selection / tier's list). -/
def resolvedBundleCourses (bundle : Bundle) (bp : BundlePurchase) : List Nat :=
  match bundle.bundleType with
  | BundleType.fixed => bundle.courses
  | BundleType.pickYourOwn => bp.selectedCourses
  | BundleType.tiered => bundle.courses

/-- One iteration of the loop in `grant_bundle_access`: grant unless a record
tied to this specific `BundlePurchase` already exists for the course. -/
def bundleStep (now : Nat) (u : Nat) (bp : BundlePurchase) (bundle : Bundle)
    (acc : List AccessRecord × Db) (c : Nat) : List AccessRecord × Db :=
  if acc.2.accesses.any (fun r =>
      decide (r.user = u ∧ r.course = c ∧ r.bundlePurchase = some bp.id)) then acc
  else
    let g := grantCourseAccess now u c AccessType.bundle none (some bp.id) none
      (some bp.purchaseId) none ("Granted via bundle purchase: " ++ bundle.name) acc.2
    (acc.1 ++ [g.1], g.2)

/-- `grant_bundle_access(user, bundle_purchase)` from `myApp/utils/access.py`. -/
def grantBundleAccess (now : Nat) (u : Nat) (bp : BundlePurchase) (db : Db) :
    List AccessRecord × Db :=
  match db.bundles.find? (fun b => decide (b.id = bp.bundle)) with
  | none => ([], db)
  | some bundle =>
    (resolvedBundleCourses bundle bp).foldl (bundleStep now u bp bundle) ([], db)

/-- `grant_purchase_access(user, course, purchase)` from
`myApp/utils/access.py`: idempotent lifetime grant keyed on the purchase. -/
def grantPurchaseAccess (now : Nat) (u c : Nat) (p : CoursePurchase) (db : Db) :
    AccessRecord × Db :=
  match db.accesses.find? (fun r =>
      decide (r.user = u ∧ r.course = c ∧ r.coursePurchase = some p.id)) with
  | some existing =>
    if existing.status ≠ AccessStatus.unlocked then
      let e := { existing with status := AccessStatus.unlocked }
      (e, saveRecord db e)
    else (existing, db)
  | none =>
    let pid := if p.providerId ≠ "" then p.providerId else toString p.id
    let g := grantCourseAccess now u c AccessType.purchase none none none (some pid) none
      ("Granted via purchase: " ++ (if p.provider ≠ "" then p.provider else "manual") ++
        " - " ++ pid) db
    let a' := { g.1 with coursePurchase := some p.id }
    (a', saveRecord g.2 a')

/-- `GiftPurchase.is_expired` from `myApp/models.py`. -/
def giftIsExpired (now : Nat) (g : GiftPurchase) : Bool :=
  match g.expiresAt with
  | some e => decide (now > e)
  | none => false

/-- The observable outcomes of the `redeem_gift` view. -/
inductive RedeemOutcome where
  | alreadyRedeemed
  | expiredGift (gift : GiftPurchase)
  | notAvailable (gift : GiftPurchase)
  | success (db : Db) (gift : GiftPurchase)
  | emailMismatch (gift : GiftPurchase)
  | loginRequired (gift : GiftPurchase)
deriving DecidableEq, Repr

/-- `redeem_gift(request, gift_token)` from `myApp/views.py`, restricted to
its access-state effect (messages/templates are presentation; both
not-logged-in exits are collapsed into `loginRequired`). -/
def redeemGift (now : Nat) (user : User) (gift : GiftPurchase) (db : Db) : RedeemOutcome :=
  if gift.recipientUser.isSome then RedeemOutcome.alreadyRedeemed
  else if giftIsExpired now gift then
    RedeemOutcome.expiredGift { gift with status := GiftStatus.expired }
  else if gift.status ≠ GiftStatus.sent then RedeemOutcome.notAvailable gift
  else if user.isAuthenticated then
    if user.email.toLower = gift.recipientEmail.toLower then
      let g := grantPurchaseAccess now user.id gift.course gift.coursePurchase db
      RedeemOutcome.success g.2
        { gift with recipientUser := some user.id, status := GiftStatus.redeemed,
                    redeemedAt := some now }
    else RedeemOutcome.emailMismatch gift
  else RedeemOutcome.loginRequired gift

/-- The canonical strict ordering on lessons within a course, as compared by
the `Q(order__lt=...) | Q(order=..., id__lt=...)` filter of `lesson_detail`. -/
def lessonBefore (a b : Lesson) : Prop :=
  a.order < b.order ∨ (a.order = b.order ∧ a.id < b.id)

instance instDecidableLessonBefore (a b : Lesson) : Decidable (lessonBefore a b) := by
  unfold lessonBefore
  exact inferInstance

/-- The inner check of `lesson_detail`: every lesson strictly before `cur` in
the canonical ordering appears in the `completed_lessons` id list. -/
def allPrevCompleted (allLessons : List Lesson) (cur : Lesson) (completed : List Nat) : Bool :=
  (allLessons.filter (fun p => decide (lessonBefore p cur))).all
    (fun p => decide (p.id ∈ completed))

/-- The `accessible_lessons` computation of `lesson_detail`
(`myApp/views.py`): over the queryset `course.lessons.order_by('order','id')`
the first lesson is always accessible, and each subsequent lesson is accessible
iff all lessons strictly before it are completed. -/
def accessibleLessons (allLessons : List Lesson) (completed : List Nat) : List Nat :=
  match allLessons with
  | [] => []
  | first :: rest =>
    first.id ::
      (rest.filter (fun cur => allPrevCompleted (first :: rest) cur completed)).map
        (fun l => l.id)

/-- `lesson.quiz` (reverse one-to-one accessor; `none` models
`LessonQuiz.DoesNotExist`). -/
def findQuizFor (db : Db) (lessonId : Nat) : Option LessonQuiz :=
  db.quizzes.find? (fun q => decide (q.lesson = lessonId))

/-- `LessonQuizAttempt.objects.filter(user=..., quiz=..., passed=True).exists()`. -/
def hasPassedQuiz (db : Db) (u quizId : Nat) : Bool :=
  db.quizAttempts.any (fun t => decide (t.user = u ∧ t.quiz = quizId ∧ t.passed = true))

/-- The `UserProgress` write of `complete_lesson`: `get_or_create` on
`(user, lesson)` followed by marking the row completed (row replacement keyed
on the `unique_together` pair). -/
def markLessonComplete (now : Nat) (u lessonId : Nat) (db : Db) : Db :=
  match db.progresses.find? (fun p => decide (p.user = u ∧ p.lesson = lessonId)) with
  | some _ =>
    { db with progresses := db.progresses.map (fun p =>
        if p.user = u ∧ p.lesson = lessonId then
          { p with completed := true, status := ProgressStatus.completed,
                   completedAt := some now, progressPercentage := 100 }
        else p) }
  | none =>
    let p : UserProgress :=
      { user := u, lesson := lessonId, status := ProgressStatus.completed,
        completed := true, completedAt := some now, progressPercentage := 100 }
    { db with progresses := db.progresses ++ [p] }

/-- The JSON outcomes of `complete_lesson` relevant to gating: the 400
response carrying `quiz_required: True`, versus the success response.  (The
certificate-issuance tail of the view touches only the `Certification` store,
which is outside the modelled state.) -/
inductive CompleteLessonResponse where
  | quizRequired (error : String)
  | ok (message : String)
deriving DecidableEq, Repr

/-- `complete_lesson(request, lesson_id)` from `myApp/views.py`: a required
quiz must have a passed attempt before the completion write is accepted. -/
def completeLesson (now : Nat) (u : Nat) (lesson : Lesson) (db : Db) :
    CompleteLessonResponse × Db :=
  match findQuizFor db lesson.id with
  | some quiz =>
    if quiz.isRequired && !hasPassedQuiz db u quiz.id then
      (CompleteLessonResponse.quizRequired
        "You must pass the lesson quiz before completing this lesson.", db)
    else
      (CompleteLessonResponse.ok "Lesson marked as complete", markLessonComplete now u lesson.id db)
  | none =>
    (CompleteLessonResponse.ok "Lesson marked as complete", markLessonComplete now u lesson.id db)

/-- The records tied to one specific `BundlePurchase` for a (user, course)
pair — the existence check of `grant_bundle_access`, counted. -/
def tiedCount (db : Db) (u bpId c : Nat) : Nat :=
  (db.accesses.filter (fun r =>
    decide (r.user = u ∧ r.course = c ∧ r.bundlePurchase = some bpId))).length

/-- The records tied to one specific `CoursePurchase` for a (user, course)
pair — the existence check of `grant_purchase_access`. -/
def purchaseTiedRecords (db : Db) (u c pid : Nat) : List AccessRecord :=
  db.accesses.filter (fun r =>
    decide (r.user = u ∧ r.course = c ∧ r.coursePurchase = some pid))

/-! ### Concrete stores used by the witnesses -/

/-- An authenticated student. -/
def uAlice : User :=
  { id := 1, isAuthenticated := true, email := "alice@example.com", username := "alice" }

/-- An authenticated admin (the `granted_by` of manual grants). -/
def uRoot : User :=
  { id := 9, isAuthenticated := true, email := "root@example.com", username := "root" }

/-- An empty store. -/
def dbEmpty : Db :=
  { accesses := [], nextId := 1, courses := [], lessons := [], progresses := [],
    quizzes := [], quizAttempts := [], bundles := [], bundlePurchases := [],
    cohorts := [], coursePurchases := [], users := [] }

/-- A lifetime manual grant of course 10 to Alice by root. -/
def recManual : AccessRecord :=
  { id := 1, user := 1, course := 10, accessType := AccessType.manual,
    status := AccessStatus.unlocked, bundlePurchase := none, coursePurchase := none,
    cohort := none, purchaseId := none, grantedAt := 5, grantedBy := some 9,
    expiresAt := none, revokedAt := none, revokedBy := none, revocationReason := "",
    notes := "" }

/-- A store holding only the manual grant. -/
def dbManual : Db :=
  { dbEmpty with accesses := [recManual], nextId := 2, users := [uAlice, uRoot] }

/-- A pending (never unlocked) record for Alice on course 11. -/
def recPending : AccessRecord :=
  { recManual with id := 2, course := 11, accessType := AccessType.purchase,
                   status := AccessStatus.pending, grantedBy := none }

/-- A store holding only the pending record. -/
def dbPending : Db :=
  { dbEmpty with accesses := [recPending], nextId := 3, users := [uAlice] }

/-! ## Theorems -/

/-! ### Generic list plumbing -/

lemma filter_map_eq_of_unchanged {α : Type} (f : α → α) (p : α → Bool) :
    ∀ l : List α, (∀ r ∈ l, f r = r ∨ (p r = false ∧ p (f r) = false)) →
      (l.map f).filter p = l.filter p := by
  intro l h
  induction l with
  | nil => simp
  | cons r tl ih =>
    have hr := h r (by simp)
    have htl : ∀ x ∈ tl, f x = r ∨ (p x = false ∧ p (f x) = false) ∨ True := fun x hx => Or.inr (Or.inr trivial)
    rcases hr with hf | ⟨h1, h2⟩
    · simp only [List.map_cons, List.filter_cons, hf]
      rw [ih (fun x hx => h x (by simp [hx]))]
    · simp only [List.map_cons, List.filter_cons, h1, h2]
      simp only [Bool.false_eq_true, if_false]
      exact ih (fun x hx => h x (by simp [hx]))

lemma filter_map_comm_of {α : Type} (f : α → α) (p : α → Bool) :
    ∀ l : List α, (∀ r ∈ l, p (f r) = p r) →
      (l.map f).filter p = (l.filter p).map f := by
  intro l h
  induction l with
  | nil => simp
  | cons r tl ih =>
    have hr := h r (by simp)
    simp only [List.map_cons, List.filter_cons, hr]
    cases hp : p r with
    | false =>
      simp only [Bool.false_eq_true, if_false]
      exact ih (fun x hx => h x (by simp [hx]))
    | true =>
      simp only [if_true, List.map_cons]
      rw [ih (fun x hx => h x (by simp [hx]))]

/-! ### Resolver plumbing -/

lemma saveRecord_ids (db : Db) (a : AccessRecord) :
    (saveRecord db a).accesses.map (fun r => r.id) = db.accesses.map (fun r => r.id) := by
  unfold saveRecord
  simp only [List.map_map]
  apply List.map_congr_left
  intro r _
  by_cases h : r.id = a.id
  · simp [Function.comp, h]
  · simp [Function.comp, h]

lemma saveRecord_accesses_of_nodup (db : Db) (a a' : AccessRecord)
    (ha : a ∈ db.accesses) (hid : a'.id = a.id)
    (hnd : (db.accesses.map (fun r => r.id)).Nodup) :
    (saveRecord db a').accesses = db.accesses.map (fun r => if r = a then a' else r) := by
  unfold saveRecord
  apply List.map_congr_left
  intro r hr
  by_cases h : r.id = a'.id
  · have hra : r = a := List.inj_on_of_nodup_map hnd hr ha (by rw [h, hid])
    rw [if_pos h, if_pos hra]
  · have hra : r ≠ a := fun he => h (by rw [he, hid])
    rw [if_neg h, if_neg hra]

lemma mem_pairRecords (db : Db) (u c : Nat) (r : AccessRecord) :
    r ∈ pairRecords db u c ↔ r ∈ db.accesses ∧ r.user = u ∧ r.course = c := by
  unfold pairRecords
  rw [List.mem_filter]
  simp

lemma activeRecords_eq_filter (now : Nat) (db : Db) (u c : Nat) :
    activeRecords now db u c =
      db.accesses.filter (fun r => decide (r.user = u ∧ r.course = c) && isActiveAt now r) := by
  unfold activeRecords pairRecords
  rw [List.filter_filter]
  apply List.filter_congr
  intro r _
  rw [Bool.and_comm]

lemma mem_activeRecords (now : Nat) (db : Db) (u c : Nat) (r : AccessRecord) :
    r ∈ activeRecords now db u c ↔
      r ∈ db.accesses ∧ r.user = u ∧ r.course = c ∧ isActiveAt now r = true := by
  rw [activeRecords_eq_filter, List.mem_filter]
  simp [and_assoc]

lemma hasCourseAccess_active (now : Nat) (user : User) (c : Nat) (db : Db)
    (a : AccessRecord) (rest : List AccessRecord)
    (hauth : user.isAuthenticated = true)
    (hactive : activeRecords now db user.id c = a :: rest) :
    hasCourseAccess now user c db =
      ⟨true, some a, "Access granted via " ++ getSourceDisplay db a, db⟩ := by
  unfold hasCourseAccess
  rw [hauth, hactive]
  rfl

lemma hasCourseAccess_granted_false (now : Nat) (user : User) (c : Nat) (db : Db)
    (hactive : activeRecords now db user.id c = []) :
    (hasCourseAccess now user c db).granted = false := by
  unfold hasCourseAccess
  cases hauth : user.isAuthenticated with
  | false => simp
  | true =>
    rw [hactive]
    simp only [Bool.not_true, Bool.false_eq_true, if_false]
    cases hp : pairRecords db user.id c with
    | nil => rfl
    | cons a rest =>
      by_cases h1 : a.status = AccessStatus.expired
      · simp [h1]
      · by_cases h2 : a.status = AccessStatus.revoked
        · simp [h1, h2]
        · simp only [h1, h2, if_false]
          cases he : a.expiresAt with
          | none => rfl
          | some e =>
            by_cases h3 : now > e
            · simp [h3]
            · simp [h3]

lemma hasCourseAccess_granted_iff (now : Nat) (user : User) (c : Nat) (db : Db) :
    (hasCourseAccess now user c db).granted = true ↔
      user.isAuthenticated = true ∧ activeRecords now db user.id c ≠ [] := by
  cases hauth : user.isAuthenticated with
  | false =>
    unfold hasCourseAccess
    simp [hauth]
  | true =>
    cases hA : activeRecords now db user.id c with
    | nil =>
      rw [hasCourseAccess_granted_false now user c db hA]
      simp
    | cons a rest =>
      rw [hasCourseAccess_active now user c db a rest hauth hA]
      simp

/-! ### C1: active unlocked record wins -/

/-- C1: for an authenticated user and course with at least one unlocked,
unexpired `AccessRecord`, `has_course_access` returns granted with the first
such record and a reason derived from that record's source (bundle name /
cohort name / "Manual (by <admin>)" / purchase id); the store is untouched. -/
theorem spec_C1 (now : Nat) (user : User) (c : Nat) (db : Db) (a : AccessRecord)
    (rest : List AccessRecord)
    (hauth : user.isAuthenticated = true)
    (hactive : activeRecords now db user.id c = a :: rest) :
    hasCourseAccess now user c db =
      ⟨true, some a, "Access granted via " ++ getSourceDisplay db a, db⟩
    ∧ (a.status = AccessStatus.unlocked ∧
        (a.expiresAt = none ∨ ∃ e, a.expiresAt = some e ∧ ¬ e < now))
    ∧ (∀ bpId bp bundle, a.bundlePurchase = some bpId →
        db.bundlePurchases.find? (fun b => decide (b.id = bpId)) = some bp →
        db.bundles.find? (fun b => decide (b.id = bp.bundle)) = some bundle →
        getSourceDisplay db a = "Bundle: " ++ bundle.name)
    ∧ (∀ coId co, a.bundlePurchase = none → a.coursePurchase = none →
        a.cohort = some coId →
        db.cohorts.find? (fun x => decide (x.id = coId)) = some co →
        getSourceDisplay db a = "Cohort: " ++ co.name)
    ∧ (∀ uid us, a.bundlePurchase = none → a.coursePurchase = none → a.cohort = none →
        a.accessType = AccessType.manual → a.grantedBy = some uid →
        db.users.find? (fun x => decide (x.id = uid)) = some us →
        getSourceDisplay db a = "Manual (by " ++ us.username ++ ")")
    ∧ (∀ pid, a.bundlePurchase = none → a.coursePurchase = none → a.cohort = none →
        a.accessType ≠ AccessType.manual → a.purchaseId = some pid → pid ≠ "" →
        getSourceDisplay db a = "Purchase: " ++ pid) := by
  have hmem : a ∈ activeRecords now db user.id c := by rw [hactive]; exact List.mem_cons_self a rest
  have hact : isActiveAt now a = true := ((mem_activeRecords now db user.id c a).mp hmem).2.2.2
  have hstat : a.status = AccessStatus.unlocked ∧
      (a.expiresAt = none ∨ ∃ e, a.expiresAt = some e ∧ ¬ e < now) := by
    unfold isActiveAt expiredBefore at hact
    simp only [Bool.and_eq_true, decide_eq_true_eq, Bool.not_eq_true'] at hact
    refine ⟨hact.1, ?_⟩
    rcases he : a.expiresAt with _ | e
    · exact Or.inl rfl
    · refine Or.inr ⟨e, rfl, ?_⟩
      have := hact.2
      rw [he] at this
      simpa using this
  refine ⟨hasCourseAccess_active now user c db a rest hauth hactive, hstat, ?_, ?_, ?_, ?_⟩
  · intro bpId bp bundle h1 h2 h3
    simp only [getSourceDisplay, h1, h2, h3]
  · intro coId co h1 h2 h3 h4
    simp only [getSourceDisplay, h1, h2, h3, h4]
  · intro uid us h1 h2 h3 h4 h5 h6
    simp only [getSourceDisplay, h1, h2, h3, h4, h5, h6, if_true]
  · intro pid h1 h2 h3 h4 h5 h6
    simp [getSourceDisplay, h1, h2, h3, h4, h5, h6]

/-- Witness for C1: Alice's manual grant of course 10 resolves as granted
with the reason "Manual (by root)". -/
theorem spec_C1_witness :
    hasCourseAccess 10 uAlice 10 dbManual =
      ⟨true, some recManual, "Access granted via Manual (by root)", dbManual⟩ := by
  have h := spec_C1 10 uAlice 10 dbManual recManual [] (by decide) (by decide)
  have hd := h.2.2.2.2.1 9 uRoot (by decide) (by decide) (by decide) (by decide)
    (by decide) (by decide)
  rw [h.1, hd]
  rfl

/-! ### C10: dormant records still resolve to "No access found" -/

/-- C10: with records present but none actively unlocked, if the most recent
record's status is neither `expired` nor `revoked` and its expiry is absent or
not in the past (e.g. `pending` or `locked`), the resolver answers
granted=false, record=None, "No access found", with no write — so that reason
does not imply the absence of records. -/
theorem spec_C10 (now : Nat) (user : User) (c : Nat) (db : Db) (a : AccessRecord)
    (rest : List AccessRecord)
    (hauth : user.isAuthenticated = true)
    (hactive : activeRecords now db user.id c = [])
    (hpair : pairRecords db user.id c = a :: rest)
    (hs1 : a.status ≠ AccessStatus.expired)
    (hs2 : a.status ≠ AccessStatus.revoked)
    (hexp : a.expiresAt = none ∨ ∃ e, a.expiresAt = some e ∧ ¬ now > e) :
    hasCourseAccess now user c db = ⟨false, none, "No access found", db⟩ := by
  unfold hasCourseAccess
  rcases hexp with h | ⟨e, he, hn⟩
  · simp [hauth, hactive, hpair, hs1, hs2, h]
  · simp [hauth, hactive, hpair, hs1, hs2, he, hn]

/-- Witness for C10: the pending record yields "No access found" even though
a record for the pair exists. -/
theorem spec_C10_witness :
    hasCourseAccess 10 uAlice 11 dbPending = ⟨false, none, "No access found", dbPending⟩ :=
  spec_C10 10 uAlice 11 dbPending recPending [] (by decide) (by decide) (by decide)
    (by decide) (by decide) (Or.inl (by decide))

/-! ### C2: lazy expiry and its idempotence -/

lemma pairRecords_saveRecord_expired (now : Nat) (user : User) (c : Nat) (db : Db)
    (a : AccessRecord) (rest : List AccessRecord)
    (hnd : (db.accesses.map (fun r => r.id)).Nodup)
    (hpair : pairRecords db user.id c = a :: rest) :
    pairRecords (saveRecord db { a with status := AccessStatus.expired }) user.id c =
      { a with status := AccessStatus.expired } ::
        rest.map (fun r => if r = a then { a with status := AccessStatus.expired } else r) := by
  have hmem : a ∈ pairRecords db user.id c := by rw [hpair]; exact List.mem_cons_self a rest
  have ha : a ∈ db.accesses := ((mem_pairRecords db user.id c a).mp hmem).1
  unfold pairRecords
  rw [saveRecord_accesses_of_nodup db a { a with status := AccessStatus.expired } ha rfl hnd]
  rw [filter_map_comm_of _ _ db.accesses (fun r _ => by
    by_cases h : r = a
    · rw [if_pos h, h]
    · rw [if_neg h])]
  have : db.accesses.filter (fun r => decide (r.user = user.id ∧ r.course = c)) = a :: rest := hpair
  rw [this, List.map_cons, if_pos rfl]

lemma activeRecords_saveRecord_expired (now : Nat) (user : User) (c : Nat) (db : Db)
    (a : AccessRecord) (rest : List AccessRecord)
    (hnd : (db.accesses.map (fun r => r.id)).Nodup)
    (hactive : activeRecords now db user.id c = [])
    (hpair : pairRecords db user.id c = a :: rest) :
    activeRecords now (saveRecord db { a with status := AccessStatus.expired }) user.id c = [] := by
  have hall : ∀ r ∈ a :: rest, isActiveAt now r = false := by
    intro r hr
    have h0 : (pairRecords db user.id c).filter (isActiveAt now) = [] := hactive
    rw [hpair] at h0
    have := List.filter_eq_nil.mp h0 r hr
    simpa using this
  unfold activeRecords
  rw [pairRecords_saveRecord_expired now user c db a rest hnd hpair]
  apply List.filter_eq_nil.mpr
  intro x hx
  rcases List.mem_cons.mp hx with hx | hx
  · subst hx
    simp [isActiveAt]
  · rcases List.mem_map.mp hx with ⟨r, hr, hrx⟩
    by_cases h : r = a
    · rw [if_pos h] at hrx
      subst hrx
      simp [isActiveAt]
    · rw [if_neg h] at hrx
      subst hrx
      simp [hall r (List.mem_cons_of_mem a hr)]

/-- C2: when no record is actively unlocked and the freshest record for the
pair is `unlocked` with an expiry in the past, the resolver answers
granted=false / "Access has expired", returns the record with its status
mutated to `expired`, and its only side effect is saving that mutation;
resolving again returns the same answer and leaves the store untouched. -/
theorem spec_C2 (now : Nat) (user : User) (c : Nat) (db : Db) (a : AccessRecord)
    (rest : List AccessRecord) (e : Nat)
    (hauth : user.isAuthenticated = true)
    (hnd : (db.accesses.map (fun r => r.id)).Nodup)
    (hactive : activeRecords now db user.id c = [])
    (hpair : pairRecords db user.id c = a :: rest)
    (hstat : a.status = AccessStatus.unlocked)
    (hexp : a.expiresAt = some e) (hpast : e < now) :
    hasCourseAccess now user c db =
      ⟨false, some { a with status := AccessStatus.expired }, "Access has expired",
        saveRecord db { a with status := AccessStatus.expired }⟩
    ∧ hasCourseAccess now user c (saveRecord db { a with status := AccessStatus.expired }) =
      ⟨false, some { a with status := AccessStatus.expired }, "Access has expired",
        saveRecord db { a with status := AccessStatus.expired }⟩ := by
  have hs1 : a.status ≠ AccessStatus.expired := by rw [hstat]; intro h; cases h
  have hs2 : a.status ≠ AccessStatus.revoked := by rw [hstat]; intro h; cases h
  constructor
  · unfold hasCourseAccess
    simp [hauth, hactive, hpair, hs1, hs2, hexp, hpast]
  · unfold hasCourseAccess
    rw [hauth]
    simp only [Bool.not_true, Bool.false_eq_true, if_false]
    rw [activeRecords_saveRecord_expired now user c db a rest hnd hactive hpair,
        pairRecords_saveRecord_expired now user c db a rest hnd hpair]
    rfl

/-- An unlocked record for Alice on course 12 that expired at time 5. -/
def recStale : AccessRecord :=
  { recManual with id := 3, course := 12, expiresAt := some 5 }

/-- A store holding only the stale record. -/
def dbStale : Db :=
  { dbEmpty with accesses := [recStale], nextId := 4, users := [uAlice, uRoot] }

/-- Witness for C2: at time 10 the stale record lazily expires, and a second
resolution is a read-only no-op with the same answer. -/
theorem spec_C2_witness :
    hasCourseAccess 10 uAlice 12 dbStale =
      ⟨false, some { recStale with status := AccessStatus.expired }, "Access has expired",
        saveRecord dbStale { recStale with status := AccessStatus.expired }⟩
    ∧ hasCourseAccess 10 uAlice 12
        (saveRecord dbStale { recStale with status := AccessStatus.expired }) =
      ⟨false, some { recStale with status := AccessStatus.expired }, "Access has expired",
        saveRecord dbStale { recStale with status := AccessStatus.expired }⟩ :=
  spec_C2 10 uAlice 12 dbStale recStale [] 5 (by decide) (by decide) (by decide) (by decide)
    (by decide) (by decide) (by decide)

/-! ### C6: revoke transitions the first unlocked record, else a no-op -/

/-- C6: `revoke_course_access` moves the first currently-unlocked record for
the pair to `revoked`, stamping `revoked_at` / `revoked_by` /
`revocation_reason` (and appending notes), saving exactly that row; when no
unlocked record exists it mutates nothing and returns the explicit `none`
("nothing to revoke") signal rather than an error. -/
theorem spec_C6 (now : Nat) (u c revokedBy : Nat) (reason notes : String) (db : Db) :
    (∀ a rest, unlockedRecords db u c = a :: rest →
      revokeCourseAccess now u c revokedBy reason notes db =
        (some { a with status := AccessStatus.revoked, revokedAt := some now,
                       revokedBy := some revokedBy, revocationReason := reason,
                       notes := if notes ≠ "" then
                                  (if a.notes ≠ "" then a.notes ++ "\n" ++ notes else notes)
                                else a.notes },
         saveRecord db { a with status := AccessStatus.revoked, revokedAt := some now,
                                revokedBy := some revokedBy, revocationReason := reason,
                                notes := if notes ≠ "" then
                                           (if a.notes ≠ "" then a.notes ++ "\n" ++ notes
                                            else notes)
                                         else a.notes }))
    ∧ (unlockedRecords db u c = [] →
        revokeCourseAccess now u c revokedBy reason notes db = (none, db)) := by
  constructor
  · intro a rest h
    unfold revokeCourseAccess
    rw [h]
  · intro h
    unfold revokeCourseAccess
    rw [h]

/-- Witness for C6: revoking Alice's manual grant stamps the revocation
fields, and revoking on the empty store is a no-op returning `none`. -/
theorem spec_C6_witness :
    revokeCourseAccess 20 1 10 9 "refund" "" dbManual =
      (some { recManual with status := AccessStatus.revoked, revokedAt := some 20,
                             revokedBy := some 9, revocationReason := "refund" },
       saveRecord dbManual { recManual with status := AccessStatus.revoked,
                                            revokedAt := some 20, revokedBy := some 9,
                                            revocationReason := "refund" })
    ∧ revokeCourseAccess 20 1 10 9 "refund" "" dbEmpty = (none, dbEmpty) := by
  have h1 := (spec_C6 20 1 10 9 "refund" "" dbManual).1 recManual [] (by decide)
  have h2 := (spec_C6 20 1 10 9 "refund" "" dbEmpty).2 (by decide)
  exact ⟨by rw [h1]; rfl, h2⟩

/-! ### C7: required quizzes gate the completion write -/

lemma markLessonComplete_writes (now : Nat) (u lid : Nat) (db : Db) :
    ((markLessonComplete now u lid db).progresses.any (fun p =>
      decide (p.user = u ∧ p.lesson = lid ∧ p.completed = true))) = true := by
  unfold markLessonComplete
  cases hf : db.progresses.find? (fun p => decide (p.user = u ∧ p.lesson = lid)) with
  | none => simp
  | some p0 =>
    have hp0 := List.find?_some hf
    have hmem := List.mem_of_find?_eq_some hf
    have hcond : p0.user = u ∧ p0.lesson = lid := of_decide_eq_true hp0
    apply List.any_eq_true.mpr
    refine ⟨{ p0 with completed := true, status := ProgressStatus.completed,
                      completedAt := some now, progressPercentage := 100 }, ?_, ?_⟩
    · have h := List.mem_map_of_mem
        (fun p : UserProgress => if p.user = u ∧ p.lesson = lid then
          { p with completed := true, status := ProgressStatus.completed,
                   completedAt := some now, progressPercentage := 100 }
          else p) hmem
      simpa [hcond.1, hcond.2] using h
    · simp [hcond.1, hcond.2]

/-- C7: a lesson whose linked quiz has `is_required=True` completes only when
a passed `LessonQuizAttempt` exists; otherwise `complete_lesson` answers the
distinguishable quiz-required outcome and writes nothing.  Lessons with no
quiz, or with a non-required quiz, complete without this precondition. -/
theorem spec_C7 (now : Nat) (u : Nat) (lesson : Lesson) (db : Db) :
    (∀ quiz, findQuizFor db lesson.id = some quiz → quiz.isRequired = true →
      hasPassedQuiz db u quiz.id = false →
      completeLesson now u lesson db =
        (CompleteLessonResponse.quizRequired
          "You must pass the lesson quiz before completing this lesson.", db))
    ∧ (∀ quiz, findQuizFor db lesson.id = some quiz → quiz.isRequired = true →
        hasPassedQuiz db u quiz.id = true →
        completeLesson now u lesson db =
          (CompleteLessonResponse.ok "Lesson marked as complete",
           markLessonComplete now u lesson.id db)
        ∧ ((completeLesson now u lesson db).2.progresses.any (fun p =>
            decide (p.user = u ∧ p.lesson = lesson.id ∧ p.completed = true))) = true)
    ∧ (∀ quiz, findQuizFor db lesson.id = some quiz → quiz.isRequired = false →
        completeLesson now u lesson db =
          (CompleteLessonResponse.ok "Lesson marked as complete",
           markLessonComplete now u lesson.id db)
        ∧ ((completeLesson now u lesson db).2.progresses.any (fun p =>
            decide (p.user = u ∧ p.lesson = lesson.id ∧ p.completed = true))) = true)
    ∧ (findQuizFor db lesson.id = none →
        completeLesson now u lesson db =
          (CompleteLessonResponse.ok "Lesson marked as complete",
           markLessonComplete now u lesson.id db)
        ∧ ((completeLesson now u lesson db).2.progresses.any (fun p =>
            decide (p.user = u ∧ p.lesson = lesson.id ∧ p.completed = true))) = true) := by
  refine ⟨?_, ?_, ?_, ?_⟩
  · intro quiz hq hreq hpass
    unfold completeLesson
    rw [hq]
    simp [hreq, hpass]
  · intro quiz hq hreq hpass
    have he : completeLesson now u lesson db =
        (CompleteLessonResponse.ok "Lesson marked as complete",
         markLessonComplete now u lesson.id db) := by
      unfold completeLesson
      rw [hq]
      simp [hreq, hpass]
    exact ⟨he, by rw [he]; exact markLessonComplete_writes now u lesson.id db⟩
  · intro quiz hq hreq
    have he : completeLesson now u lesson db =
        (CompleteLessonResponse.ok "Lesson marked as complete",
         markLessonComplete now u lesson.id db) := by
      unfold completeLesson
      rw [hq]
      simp [hreq]
    exact ⟨he, by rw [he]; exact markLessonComplete_writes now u lesson.id db⟩
  · intro hq
    have he : completeLesson now u lesson db =
        (CompleteLessonResponse.ok "Lesson marked as complete",
         markLessonComplete now u lesson.id db) := by
      unfold completeLesson
      rw [hq]
    exact ⟨he, by rw [he]; exact markLessonComplete_writes now u lesson.id db⟩

/-- A lesson of course 20 with a required quiz. -/
def lessonQuizzed : Lesson := { id := 100, course := 20, order := 1 }

/-- The required quiz attached to `lessonQuizzed`. -/
def quizRequiredFix : LessonQuiz := { id := 5, lesson := 100, isRequired := true, passingScore := 70 }

/-- A store where Alice has not passed the required quiz. -/
def dbQuizNoPass : Db := { dbEmpty with quizzes := [quizRequiredFix], users := [uAlice] }

/-- A store where Alice has a passed attempt for the required quiz. -/
def dbQuizPass : Db :=
  { dbQuizNoPass with quizAttempts := [{ user := 1, quiz := 5, passed := true }] }

/-- Witness for C7: without a passed attempt the completion is refused with
the quiz-required outcome and no write; with one, the completion write lands. -/
theorem spec_C7_witness :
    completeLesson 30 1 lessonQuizzed dbQuizNoPass =
      (CompleteLessonResponse.quizRequired
        "You must pass the lesson quiz before completing this lesson.", dbQuizNoPass)
    ∧ ((completeLesson 30 1 lessonQuizzed dbQuizPass).2.progresses.any (fun p =>
        decide (p.user = 1 ∧ p.lesson = lessonQuizzed.id ∧ p.completed = true))) = true := by
  have h1 := (spec_C7 30 1 lessonQuizzed dbQuizNoPass).1 quizRequiredFix (by decide)
    (by decide) (by decide)
  have h2 := ((spec_C7 30 1 lessonQuizzed dbQuizPass).2.1 quizRequiredFix (by decide)
    (by decide) (by decide)).2
  exact ⟨h1, h2⟩

/-! ### C8: the catalog partitioner -/

lemma activeRecords_ne_nil_iff (now : Nat) (db : Db) (u c : Nat) :
    activeRecords now db u c ≠ [] ↔
      ∃ r ∈ db.accesses, r.user = u ∧ r.course = c ∧ isActiveAt now r = true := by
  rw [activeRecords_eq_filter]
  constructor
  · intro h
    cases hm : db.accesses.filter
        (fun r => decide (r.user = u ∧ r.course = c) && isActiveAt now r) with
    | nil => exact absurd hm h
    | cons x tl =>
      have hx : x ∈ db.accesses.filter
          (fun r => decide (r.user = u ∧ r.course = c) && isActiveAt now r) := by
        rw [hm]; exact List.mem_cons_self x tl
      have := List.mem_filter.mp hx
      rcases this with ⟨hxl, hp⟩
      simp only [Bool.and_eq_true, decide_eq_true_eq] at hp
      exact ⟨x, hxl, hp.1.1, hp.1.2, hp.2⟩
  · rintro ⟨r, hrl, h1, h2, h3⟩ hnil
    have : r ∈ db.accesses.filter
        (fun r => decide (r.user = u ∧ r.course = c) && isActiveAt now r) := by
      rw [List.mem_filter]
      refine ⟨hrl, ?_⟩
      simp [h1, h2, h3]
    rw [hnil] at this
    cases this

lemma granted_iff_exists_active (now : Nat) (user : User) (c : Nat) (db : Db)
    (hauth : user.isAuthenticated = true) :
    (hasCourseAccess now user c db).granted = true ↔
      ∃ r ∈ db.accesses, r.user = user.id ∧ r.course = c ∧ isActiveAt now r = true := by
  rw [hasCourseAccess_granted_iff]
  constructor
  · intro h
    exact (activeRecords_ne_nil_iff now db user.id c).mp h.2
  · intro h
    exact ⟨hauth, (activeRecords_ne_nil_iff now db user.id c).mpr h⟩

lemma mem_myCourses_iff (now : Nat) (user : User) (db : Db) (c : Course)
    (hauth : user.isAuthenticated = true) :
    c ∈ getUserAccessibleCourses now user db ↔
      c ∈ db.courses ∧ (hasCourseAccess now user c.id db).granted = true := by
  unfold getUserAccessibleCourses
  rw [hauth, granted_iff_exists_active now user c.id db hauth]
  simp only [Bool.not_true, Bool.false_eq_true, if_false, List.mem_filter,
    decide_eq_true_eq, List.mem_map, Bool.and_eq_true]
  tauto

/-- C8 (amended): for an authenticated user, "mine" contains exactly the
catalog courses the Resolver grants; "available to unlock" contains exactly
the active courses with visibility public / members-only / hidden that are
not granted; "not available" contains exactly the courses that are private
AND active.  (As the counterexample shows, the three buckets of the code are
neither pairwise disjoint nor a covering of the catalog, and private
non-active courses fall in no bucket.)  The partitioner performs no writes:
it returns buckets only. -/
theorem spec_C8 (now : Nat) (user : User) (db : Db)
    (hauth : user.isAuthenticated = true) :
    (∀ c, c ∈ (getCoursesByVisibility now user db).myCourses ↔
      c ∈ db.courses ∧ (hasCourseAccess now user c.id db).granted = true)
    ∧ (∀ c, c ∈ (getCoursesByVisibility now user db).availableToUnlock ↔
        c ∈ db.courses ∧
        (c.visibility = Visibility.public ∨ c.visibility = Visibility.membersOnly ∨
          c.visibility = Visibility.hidden) ∧ c.status = CourseStatus.active ∧
        (hasCourseAccess now user c.id db).granted = false)
    ∧ (∀ c, c ∈ (getCoursesByVisibility now user db).notAvailable ↔
        c ∈ db.courses ∧ c.visibility = Visibility.priv ∧ c.status = CourseStatus.active) := by
  have hbuckets : getCoursesByVisibility now user db =
      { myCourses := getUserAccessibleCourses now user db,
        availableToUnlock :=
          (db.courses.filter (fun c =>
            decide ((c.visibility = Visibility.public ∨ c.visibility = Visibility.membersOnly ∨
                     c.visibility = Visibility.hidden) ∧ c.status = CourseStatus.active))).filter
            (fun c => !((getUserAccessibleCourses now user db).any (fun m => decide (m.id = c.id)))),
        notAvailable :=
          db.courses.filter (fun c =>
            decide (c.visibility = Visibility.priv ∧ c.status = CourseStatus.active)) } := by
    unfold getCoursesByVisibility
    rw [hauth]
    rfl
  refine ⟨?_, ?_, ?_⟩
  · intro c
    rw [hbuckets]
    exact mem_myCourses_iff now user db c hauth
  · intro c
    rw [hbuckets]
    simp only [List.mem_filter, decide_eq_true_eq, Bool.not_eq_true', List.any_eq_false,
      decide_eq_true_eq]
    constructor
    · rintro ⟨⟨hc, hvis, hst⟩, hnone⟩
      refine ⟨hc, hvis, hst, ?_⟩
      cases hgr : (hasCourseAccess now user c.id db).granted with
      | false => rfl
      | true =>
        have hcmem : c ∈ getUserAccessibleCourses now user db :=
          (mem_myCourses_iff now user db c hauth).mpr ⟨hc, hgr⟩
        exact absurd rfl (hnone c hcmem)
    · rintro ⟨hc, hvis, hst, hngr⟩
      refine ⟨⟨hc, hvis, hst⟩, ?_⟩
      intro m hm hid
      have hmg := (mem_myCourses_iff now user db m hauth).mp hm
      have hgr : (hasCourseAccess now user c.id db).granted = true := by
        rw [← hid]
        exact hmg.2
      rw [hgr] at hngr
      exact Bool.noConfusion hngr
  · intro c
    rw [hbuckets]
    simp only [List.mem_filter, decide_eq_true_eq]

/-- A private, active course that Alice holds a grant for. -/
def coursePrivActive : Course :=
  { id := 60, name := "Private Active", status := CourseStatus.active,
    visibility := Visibility.priv, prerequisiteCourses := [] }

/-- A public course that is not active (coming soon). -/
def coursePubComing : Course :=
  { id := 61, name := "Public Coming Soon", status := CourseStatus.comingSoon,
    visibility := Visibility.public, prerequisiteCourses := [] }

/-- A private course that is not active (locked). -/
def coursePrivLocked : Course :=
  { id := 62, name := "Private Locked", status := CourseStatus.locked,
    visibility := Visibility.priv, prerequisiteCourses := [] }

/-- Alice's grant on the private active course. -/
def recPrivGrant : AccessRecord := { recManual with id := 4, course := 60 }

/-- A three-course catalog exhibiting the bucket anomalies. -/
def dbCatalog : Db :=
  { dbEmpty with accesses := [recPrivGrant], nextId := 5,
                 courses := [coursePrivActive, coursePubComing, coursePrivLocked],
                 users := [uAlice, uRoot] }

/-- Counterexample for C8 as stated: on `dbCatalog` the buckets are not
pairwise disjoint (a granted private active course is in both "mine" and
"not available"), they do not cover the catalog (a public coming-soon course
without access is in no bucket), and "not available" is not "exactly the
courses with visibility private" (a private locked course is outside it). -/
theorem spec_C8_counterexample :
    (coursePrivActive ∈ (getCoursesByVisibility 50 uAlice dbCatalog).myCourses
      ∧ coursePrivActive ∈ (getCoursesByVisibility 50 uAlice dbCatalog).notAvailable)
    ∧ (coursePubComing ∈ dbCatalog.courses
      ∧ coursePubComing ∉ (getCoursesByVisibility 50 uAlice dbCatalog).myCourses
      ∧ coursePubComing ∉ (getCoursesByVisibility 50 uAlice dbCatalog).availableToUnlock
      ∧ coursePubComing ∉ (getCoursesByVisibility 50 uAlice dbCatalog).notAvailable)
    ∧ (coursePrivLocked ∈ dbCatalog.courses
      ∧ coursePrivLocked.visibility = Visibility.priv
      ∧ coursePrivLocked ∉ (getCoursesByVisibility 50 uAlice dbCatalog).notAvailable) := by
  decide

/-- Witness for C8 (amended): on the concrete catalog, the granted private
active course is in "mine" and in "not available". -/
theorem spec_C8_witness :
    coursePrivActive ∈ (getCoursesByVisibility 50 uAlice dbCatalog).myCourses
    ∧ coursePrivActive ∈ (getCoursesByVisibility 50 uAlice dbCatalog).notAvailable := by
  have h := spec_C8 50 uAlice dbCatalog (by decide)
  exact ⟨(h.1 coursePrivActive).mpr ⟨by decide, by decide⟩,
         (h.2.2 coursePrivActive).mpr ⟨by decide, by decide, by decide⟩⟩

/-! ### C5: bundle grants are idempotent per BundlePurchase -/

lemma tiedAny_iff (db : Db) (u bpId c : Nat) :
    (db.accesses.any (fun r =>
      decide (r.user = u ∧ r.course = c ∧ r.bundlePurchase = some bpId))) = true ↔
      tiedCount db u bpId c ≠ 0 := by
  unfold tiedCount
  rw [List.any_eq_true]
  constructor
  · rintro ⟨r, hr, hp⟩ h0
    rw [List.length_eq_zero] at h0
    have hm : r ∈ db.accesses.filter (fun r =>
        decide (r.user = u ∧ r.course = c ∧ r.bundlePurchase = some bpId)) :=
      List.mem_filter.mpr ⟨hr, hp⟩
    rw [h0] at hm
    cases hm
  · intro h
    rcases List.exists_mem_of_length_pos (Nat.pos_of_ne_zero h) with ⟨r, hr⟩
    have := List.mem_filter.mp hr
    exact ⟨r, this.1, this.2⟩

lemma bundleLoop_bundles (now u : Nat) (bp : BundlePurchase) (bundle : Bundle) :
    ∀ (cs : List Nat) (acc : List AccessRecord) (db : Db),
      ((cs.foldl (bundleStep now u bp bundle) (acc, db)).2).bundles = db.bundles := by
  intro cs
  induction cs with
  | nil => intro acc db; rfl
  | cons c0 rest ih =>
    intro acc db
    rw [List.foldl_cons]
    by_cases hany : (db.accesses.any (fun r =>
        decide (r.user = u ∧ r.course = c0 ∧ r.bundlePurchase = some bp.id))) = true
    · have hstep : bundleStep now u bp bundle (acc, db) c0 = (acc, db) := by
        unfold bundleStep
        exact if_pos hany
      rw [hstep, ih]
    · have hstep : bundleStep now u bp bundle (acc, db) c0 =
          (acc ++ [(grantCourseAccess now u c0 AccessType.bundle none (some bp.id) none
            (some bp.purchaseId) none ("Granted via bundle purchase: " ++ bundle.name) db).1],
           (grantCourseAccess now u c0 AccessType.bundle none (some bp.id) none
            (some bp.purchaseId) none ("Granted via bundle purchase: " ++ bundle.name) db).2) := by
        unfold bundleStep
        rw [if_neg hany]
      rw [hstep, ih]
      rfl

lemma grantCourseAccess_tiedCount (now u c0 : Nat) (bp : BundlePurchase) (bundle : Bundle)
    (db : Db) (x : Nat) :
    tiedCount (grantCourseAccess now u c0 AccessType.bundle none (some bp.id) none
        (some bp.purchaseId) none ("Granted via bundle purchase: " ++ bundle.name) db).2
        u bp.id x =
      if x = c0 then tiedCount db u bp.id x + 1 else tiedCount db u bp.id x := by
  unfold tiedCount grantCourseAccess
  simp only [List.filter_cons]
  by_cases hx : x = c0
  · subst hx
    simp
  · have hxx : ¬(c0 = x) := fun h => hx h.symm
    simp [hx, hxx]

lemma bundleLoop_tiedCount (now u : Nat) (bp : BundlePurchase) (bundle : Bundle) :
    ∀ (cs : List Nat) (acc : List AccessRecord) (db : Db) (c : Nat),
      tiedCount ((cs.foldl (bundleStep now u bp bundle) (acc, db)).2) u bp.id c =
        if c ∈ cs ∧ tiedCount db u bp.id c = 0 then 1 else tiedCount db u bp.id c := by
  intro cs
  induction cs with
  | nil => intro acc db c; simp
  | cons c0 rest ih =>
    intro acc db c
    rw [List.foldl_cons]
    by_cases hany : (db.accesses.any (fun r =>
        decide (r.user = u ∧ r.course = c0 ∧ r.bundlePurchase = some bp.id))) = true
    · have hc0 : tiedCount db u bp.id c0 ≠ 0 := (tiedAny_iff db u bp.id c0).mp hany
      have hstep : bundleStep now u bp bundle (acc, db) c0 = (acc, db) := by
        unfold bundleStep
        exact if_pos hany
      rw [hstep, ih]
      by_cases hcc : c = c0
      · subst hcc
        simp [hc0]
      · simp [List.mem_cons, hcc]
    · have hc0 : tiedCount db u bp.id c0 = 0 := by
        by_contra h
        exact hany ((tiedAny_iff db u bp.id c0).mpr h)
      have hstep : bundleStep now u bp bundle (acc, db) c0 =
          (acc ++ [(grantCourseAccess now u c0 AccessType.bundle none (some bp.id) none
            (some bp.purchaseId) none ("Granted via bundle purchase: " ++ bundle.name) db).1],
           (grantCourseAccess now u c0 AccessType.bundle none (some bp.id) none
            (some bp.purchaseId) none ("Granted via bundle purchase: " ++ bundle.name) db).2) := by
        unfold bundleStep
        rw [if_neg hany]
      rw [hstep, ih]
      rw [grantCourseAccess_tiedCount now u c0 bp bundle db c]
      by_cases hcc : c = c0
      · subst hcc
        simp [hc0, List.mem_cons]
      · simp [List.mem_cons, hcc]

lemma bundleLoop_noop (now u : Nat) (bp : BundlePurchase) (bundle : Bundle) :
    ∀ (cs : List Nat) (acc : List AccessRecord) (db : Db),
      (∀ c ∈ cs, tiedCount db u bp.id c ≠ 0) →
      cs.foldl (bundleStep now u bp bundle) (acc, db) = (acc, db) := by
  intro cs
  induction cs with
  | nil => intro acc db _; rfl
  | cons c0 rest ih =>
    intro acc db h
    rw [List.foldl_cons]
    have hany := (tiedAny_iff db u bp.id c0).mpr (h c0 (List.mem_cons_self c0 rest))
    have hstep : bundleStep now u bp bundle (acc, db) c0 = (acc, db) := by
      unfold bundleStep
      exact if_pos hany
    rw [hstep]
    exact ih acc db (fun c hc => h c (List.mem_cons_of_mem c0 hc))

/-- C5: granting the same `BundlePurchase` twice leaves exactly one
`AccessRecord` tied to that purchase per course of the bundle's resolved
course set, and the second call creates nothing at all. -/
theorem spec_C5 (now1 now2 u : Nat) (bp : BundlePurchase) (db : Db) (bundle : Bundle)
    (hb : db.bundles.find? (fun b => decide (b.id = bp.bundle)) = some bundle)
    (hfresh : ∀ r ∈ db.accesses, r.bundlePurchase ≠ some bp.id) :
    (∀ c ∈ resolvedBundleCourses bundle bp,
      tiedCount (grantBundleAccess now2 u bp (grantBundleAccess now1 u bp db).2).2 u bp.id c = 1)
    ∧ grantBundleAccess now2 u bp (grantBundleAccess now1 u bp db).2 =
        ([], (grantBundleAccess now1 u bp db).2) := by
  have hzero : ∀ c, tiedCount db u bp.id c = 0 := by
    intro c
    unfold tiedCount
    rw [List.length_eq_zero]
    apply List.filter_eq_nil.mpr
    intro r hr
    simp only [decide_eq_true_eq, not_and]
    intro _ _
    exact hfresh r hr
  have h1 : grantBundleAccess now1 u bp db =
      (resolvedBundleCourses bundle bp).foldl (bundleStep now1 u bp bundle) ([], db) := by
    unfold grantBundleAccess
    rw [hb]
  have hcount1 : ∀ c, tiedCount (grantBundleAccess now1 u bp db).2 u bp.id c =
      if c ∈ resolvedBundleCourses bundle bp then 1 else 0 := by
    intro c
    rw [h1, bundleLoop_tiedCount now1 u bp bundle (resolvedBundleCourses bundle bp) [] db c,
        hzero c]
    by_cases hmem : c ∈ resolvedBundleCourses bundle bp
    · simp [hmem]
    · simp [hmem]
  have hbundles1 : (grantBundleAccess now1 u bp db).2.bundles = db.bundles := by
    rw [h1]
    exact bundleLoop_bundles now1 u bp bundle (resolvedBundleCourses bundle bp) [] db
  have h2 : grantBundleAccess now2 u bp (grantBundleAccess now1 u bp db).2 =
      ([], (grantBundleAccess now1 u bp db).2) := by
    set db1 := (grantBundleAccess now1 u bp db).2 with hdb1
    have hfind1 : db1.bundles.find? (fun b => decide (b.id = bp.bundle)) = some bundle := by
      rw [show db1.bundles = db.bundles from hbundles1]
      exact hb
    unfold grantBundleAccess
    rw [hfind1]
    apply bundleLoop_noop
    intro c hc
    rw [hcount1 c, if_pos hc]
    exact one_ne_zero
  refine ⟨?_, h2⟩
  intro c hc
  rw [h2, hcount1 c, if_pos hc]

/-- A fixed bundle over courses 10 and 11. -/
def bundleFix : Bundle :=
  { id := 40, name := "Starter", bundleType := BundleType.fixed, courses := [10, 11] }

/-- Alice's purchase of the fixed bundle. -/
def bpFix : BundlePurchase :=
  { id := 50, user := 1, bundle := 40, purchaseId := "ord-1", selectedCourses := [] }

/-- A store holding the bundle and its purchase, with no accesses yet. -/
def dbBundle : Db :=
  { dbEmpty with bundles := [bundleFix], bundlePurchases := [bpFix], users := [uAlice] }

/-- Witness for C5: granting Alice's bundle purchase twice leaves exactly one
record tied to the purchase for course 10, and the second call is a no-op. -/
theorem spec_C5_witness :
    tiedCount (grantBundleAccess 6 1 bpFix (grantBundleAccess 5 1 bpFix dbBundle).2).2
      1 bpFix.id 10 = 1
    ∧ grantBundleAccess 6 1 bpFix (grantBundleAccess 5 1 bpFix dbBundle).2 =
        ([], (grantBundleAccess 5 1 bpFix dbBundle).2) := by
  have h := spec_C5 5 6 1 bpFix dbBundle bundleFix (by decide)
    (fun r hr => by cases hr)
  exact ⟨h.1 10 (by decide), h.2⟩

/-! ### C9: gift redemption refines the purchase grant -/

lemma map_ite_const_id {α : Type} (b : α) (p : α → Prop) [DecidablePred p] :
    ∀ l : List α, (∀ r ∈ l, ¬ p r) → (l.map (fun r => if p r then b else r)) = l := by
  intro l h
  induction l with
  | nil => rfl
  | cons x tl ih =>
    rw [List.map_cons, if_neg (h x (List.mem_cons_self x tl)),
        ih (fun r hr => h r (List.mem_cons_of_mem x hr))]

lemma grantPurchaseAccess_fresh (now u c : Nat) (p : CoursePurchase) (db : Db)
    (hnone : ∀ r ∈ db.accesses, ¬(r.user = u ∧ r.course = c ∧ r.coursePurchase = some p.id))
    (hid : ∀ r ∈ db.accesses, r.id ≠ db.nextId) :
    grantPurchaseAccess now u c p db =
      ({ id := db.nextId, user := u, course := c, accessType := AccessType.purchase,
         status := AccessStatus.unlocked, bundlePurchase := none,
         coursePurchase := some p.id, cohort := none,
         purchaseId := some (if p.providerId ≠ "" then p.providerId else toString p.id),
         grantedAt := now, grantedBy := none, expiresAt := none, revokedAt := none,
         revokedBy := none, revocationReason := "",
         notes := "Granted via purchase: " ++ (if p.provider ≠ "" then p.provider else "manual")
           ++ " - " ++ (if p.providerId ≠ "" then p.providerId else toString p.id) },
       { db with
         accesses :=
           { id := db.nextId, user := u, course := c, accessType := AccessType.purchase,
             status := AccessStatus.unlocked, bundlePurchase := none,
             coursePurchase := some p.id, cohort := none,
             purchaseId := some (if p.providerId ≠ "" then p.providerId else toString p.id),
             grantedAt := now, grantedBy := none, expiresAt := none, revokedAt := none,
             revokedBy := none, revocationReason := "",
             notes := "Granted via purchase: "
               ++ (if p.provider ≠ "" then p.provider else "manual")
               ++ " - " ++ (if p.providerId ≠ "" then p.providerId else toString p.id) }
             :: db.accesses,
         nextId := db.nextId + 1 }) := by
  have hf : db.accesses.find? (fun r =>
      decide (r.user = u ∧ r.course = c ∧ r.coursePurchase = some p.id)) = none := by
    apply List.find?_eq_none.mpr
    intro r hr
    simpa using hnone r hr
  have hmap : db.accesses.map (fun r => if r.id = db.nextId then
      { id := db.nextId, user := u, course := c, accessType := AccessType.purchase,
        status := AccessStatus.unlocked, bundlePurchase := none,
        coursePurchase := some p.id, cohort := none,
        purchaseId := some (if p.providerId ≠ "" then p.providerId else toString p.id),
        grantedAt := now, grantedBy := none, expiresAt := none, revokedAt := none,
        revokedBy := none, revocationReason := "",
        notes := "Granted via purchase: " ++ (if p.provider ≠ "" then p.provider else "manual")
          ++ " - " ++ (if p.providerId ≠ "" then p.providerId else toString p.id) }
      else r) = db.accesses :=
    map_ite_const_id _ (fun r => r.id = db.nextId) db.accesses hid
  unfold grantPurchaseAccess
  rw [hf]
  unfold grantCourseAccess saveRecord
  simp only [List.map_cons, if_pos rfl]
  rw [hmap]
  simp only [if_true]

lemma grantPurchaseAccess_existing_unlocked (now : Nat) (u c : Nat) (p : CoursePurchase)
    (db : Db) (a : AccessRecord)
    (hf : db.accesses.find? (fun r =>
      decide (r.user = u ∧ r.course = c ∧ r.coursePurchase = some p.id)) = some a)
    (hst : a.status = AccessStatus.unlocked) :
    grantPurchaseAccess now u c p db = (a, db) := by
  unfold grantPurchaseAccess
  rw [hf]
  simp [hst]

/-- C9: a successful gift redemption produces exactly the access state of
`grant_purchase_access(user, gift.course, gift.course_purchase)`, which (on a
store with no record tied to that purchase) is a lifetime grant: exactly one
record tied to the purchase, unlocked, with no expiry — and re-granting the
same purchase afterwards changes nothing. -/
theorem spec_C9 (now now2 : Nat) (user : User) (gift : GiftPurchase) (db : Db)
    (hauth : user.isAuthenticated = true)
    (hnew : gift.recipientUser = none)
    (hnexp : giftIsExpired now gift = false)
    (hsent : gift.status = GiftStatus.sent)
    (hmail : user.email.toLower = gift.recipientEmail.toLower)
    (hnone : ∀ r ∈ db.accesses, ¬(r.user = user.id ∧ r.course = gift.course ∧
        r.coursePurchase = some gift.coursePurchase.id))
    (hid : ∀ r ∈ db.accesses, r.id ≠ db.nextId) :
    redeemGift now user gift db =
      RedeemOutcome.success
        (grantPurchaseAccess now user.id gift.course gift.coursePurchase db).2
        { gift with recipientUser := some user.id, status := GiftStatus.redeemed,
                    redeemedAt := some now }
    ∧ purchaseTiedRecords (grantPurchaseAccess now user.id gift.course gift.coursePurchase db).2
        user.id gift.course gift.coursePurchase.id =
        [(grantPurchaseAccess now user.id gift.course gift.coursePurchase db).1]
    ∧ (grantPurchaseAccess now user.id gift.course gift.coursePurchase db).1.status =
        AccessStatus.unlocked
    ∧ (grantPurchaseAccess now user.id gift.course gift.coursePurchase db).1.expiresAt = none
    ∧ grantPurchaseAccess now2 user.id gift.course gift.coursePurchase
        (grantPurchaseAccess now user.id gift.course gift.coursePurchase db).2 =
        ((grantPurchaseAccess now user.id gift.course gift.coursePurchase db).1,
         (grantPurchaseAccess now user.id gift.course gift.coursePurchase db).2) := by
  have hg := grantPurchaseAccess_fresh now user.id gift.course gift.coursePurchase db hnone hid
  refine ⟨?_, ?_, ?_, ?_, ?_⟩
  · unfold redeemGift
    rw [hnew]
    simp only [Option.isSome_none, Bool.false_eq_true, if_false]
    rw [hnexp]
    simp only [Bool.false_eq_true, if_false]
    rw [if_neg (fun h => h hsent), hauth]
    simp only [if_true]
    rw [if_pos hmail]
  · rw [hg]
    unfold purchaseTiedRecords
    simp only [List.filter_cons]
    rw [if_pos (by simp)]
    have : db.accesses.filter (fun r =>
        decide (r.user = user.id ∧ r.course = gift.course ∧
          r.coursePurchase = some gift.coursePurchase.id)) = [] := by
      apply List.filter_eq_nil.mpr
      intro r hr
      simpa using hnone r hr
    rw [this]
  · rw [hg]
  · rw [hg]
  · rw [hg]
    apply grantPurchaseAccess_existing_unlocked
    · rw [List.find?_cons_of_pos _ (by simp)]
    · rfl

/-- The purchase that backs the gift of course 15. -/
def cpGift : CoursePurchase :=
  { id := 70, user := 2, course := 15, provider := "stripe", providerId := "pi_1" }

/-- A sent gift of course 15 addressed to Alice's email. -/
def giftFix : GiftPurchase :=
  { purchaser := 2, course := 15, coursePurchase := cpGift,
    recipientEmail := "alice@example.com", status := GiftStatus.sent, giftToken := "tok",
    expiresAt := none, redeemedAt := none, recipientUser := none }

/-- A store holding the backing purchase and no accesses. -/
def dbGift : Db := { dbEmpty with coursePurchases := [cpGift], users := [uAlice] }

/-- Witness for C9: Alice redeeming the concrete gift succeeds with exactly
the purchase-grant state, holding one unlocked lifetime record. -/
theorem spec_C9_witness :
    redeemGift 40 uAlice giftFix dbGift =
      RedeemOutcome.success
        (grantPurchaseAccess 40 uAlice.id giftFix.course giftFix.coursePurchase dbGift).2
        { giftFix with recipientUser := some uAlice.id, status := GiftStatus.redeemed,
                       redeemedAt := some 40 }
    ∧ purchaseTiedRecords
        (grantPurchaseAccess 40 uAlice.id giftFix.course giftFix.coursePurchase dbGift).2
        uAlice.id giftFix.course giftFix.coursePurchase.id =
        [(grantPurchaseAccess 40 uAlice.id giftFix.course giftFix.coursePurchase dbGift).1] := by
  have h := spec_C9 40 41 uAlice giftFix dbGift (by decide) (by decide) (by decide)
    (by decide) (by rfl) (fun r hr => by cases hr) (fun r hr => by cases hr)
  exact ⟨h.1, h.2.1⟩

/-! ### C4: prerequisite evaluation -/

lemma hasCourseAccess_unauth (now : Nat) (user : User) (c : Nat) (db : Db)
    (h : user.isAuthenticated = false) :
    hasCourseAccess now user c db = ⟨false, none, "Not authenticated", db⟩ := by
  unfold hasCourseAccess
  rw [h]
  rfl

lemma hasCourseAccess_db_lessons (now : Nat) (user : User) (c : Nat) (db : Db) :
    (hasCourseAccess now user c db).db.lessons = db.lessons := by
  unfold hasCourseAccess
  repeat' split
  all_goals rfl

lemma hasCourseAccess_db_progresses (now : Nat) (user : User) (c : Nat) (db : Db) :
    (hasCourseAccess now user c db).db.progresses = db.progresses := by
  unfold hasCourseAccess
  repeat' split
  all_goals rfl

lemma hasCourseAccess_db_ids (now : Nat) (user : User) (c : Nat) (db : Db) :
    (hasCourseAccess now user c db).db.accesses.map (fun r => r.id) =
      db.accesses.map (fun r => r.id) := by
  unfold hasCourseAccess
  repeat' split
  all_goals first
    | rfl
    | exact saveRecord_ids _ _

lemma hasCourseAccess_db_cases (now : Nat) (user : User) (c : Nat) (db : Db) :
    (hasCourseAccess now user c db).db = db ∨
    ∃ a, a ∈ pairRecords db user.id c ∧
      (hasCourseAccess now user c db).db =
        saveRecord db { a with status := AccessStatus.expired } := by
  cases hauthv : user.isAuthenticated with
  | false =>
    left
    rw [hasCourseAccess_unauth now user c db hauthv]
  | true =>
    unfold hasCourseAccess
    rw [hauthv]
    simp only [Bool.not_true, Bool.false_eq_true, if_false]
    cases hA : activeRecords now db user.id c with
    | cons a rest => exact Or.inl rfl
    | nil =>
      cases hp : pairRecords db user.id c with
      | nil => exact Or.inl rfl
      | cons a rest =>
        by_cases h1 : a.status = AccessStatus.expired
        · left
          simp [h1]
        · by_cases h2 : a.status = AccessStatus.revoked
          · left
            simp [h1, h2]
          · cases he : a.expiresAt with
            | none =>
              left
              simp [h1, h2, he]
            | some e =>
              by_cases h3 : now > e
              · right
                refine ⟨a, ?_, ?_⟩
                · exact List.mem_cons_self a rest
                · simp [h1, h2, he, h3]
              · left
                simp [h1, h2, he, h3]

lemma pairRecords_save_expired_frame (db : Db) (a : AccessRecord) (u' c' : Nat)
    (ha : a ∈ db.accesses) (hac : a.course ≠ c')
    (hnd : (db.accesses.map (fun r => r.id)).Nodup) :
    pairRecords (saveRecord db { a with status := AccessStatus.expired }) u' c' =
      pairRecords db u' c' := by
  unfold pairRecords saveRecord
  apply filter_map_eq_of_unchanged
  intro r hr
  by_cases hidr : r.id = a.id
  · right
    have hra : r = a := List.inj_on_of_nodup_map hnd hr ha hidr
    constructor
    · apply decide_eq_false
      rintro ⟨-, hcc⟩
      exact hac (hra ▸ hcc)
    · rw [if_pos hidr]
      apply decide_eq_false
      rintro ⟨-, hcc⟩
      exact hac hcc
  · left
    exact if_neg hidr

lemma hasCourseAccess_pair_frame (now : Nat) (user : User) (c : Nat) (db : Db)
    (u' c' : Nat)
    (hnd : (db.accesses.map (fun r => r.id)).Nodup) (hne : c' ≠ c) :
    pairRecords (hasCourseAccess now user c db).db u' c' = pairRecords db u' c' := by
  rcases hasCourseAccess_db_cases now user c db with h | ⟨a, hmem, h⟩
  · rw [h]
  · rw [h]
    have hm := (mem_pairRecords db user.id c a).mp hmem
    exact pairRecords_save_expired_frame db a u' c' hm.1
      (by rw [hm.2.2]; exact fun hh => hne hh.symm) hnd

lemma hasCourseAccess_granted_congr (now : Nat) (user : User) (c : Nat) (db1 db2 : Db)
    (h : pairRecords db1 user.id c = pairRecords db2 user.id c) :
    (hasCourseAccess now user c db1).granted = (hasCourseAccess now user c db2).granted := by
  have e : activeRecords now db1 user.id c = activeRecords now db2 user.id c := by
    unfold activeRecords
    rw [h]
  cases hauthv : user.isAuthenticated with
  | false =>
    rw [hasCourseAccess_unauth now user c db1 hauthv,
        hasCourseAccess_unauth now user c db2 hauthv]
  | true =>
    cases hA : activeRecords now db2 user.id c with
    | nil =>
      rw [hasCourseAccess_granted_false now user c db1 (e.trans hA),
          hasCourseAccess_granted_false now user c db2 hA]
    | cons a rest =>
      rw [hasCourseAccess_active now user c db1 a rest hauthv (e.trans hA),
          hasCourseAccess_active now user c db2 a rest hauthv hA]

lemma courseLessonCount_congr (db1 db2 : Db) (c : Nat) (h : db1.lessons = db2.lessons) :
    courseLessonCount db1 c = courseLessonCount db2 c := by
  unfold courseLessonCount
  rw [h]

lemma completedLessonCountFor_congr (db1 db2 : Db) (u c : Nat)
    (h1 : db1.progresses = db2.progresses) (h2 : db1.lessons = db2.lessons) :
    completedLessonCountFor db1 u c = completedLessonCountFor db2 u c := by
  unfold completedLessonCountFor
  rw [h1, h2]

/-- The per-prerequisite failure condition of `check_course_prerequisites`,
evaluated against a fixed store. -/
def prereqMissed (now : Nat) (user : User) (db : Db) (q : Course) : Prop :=
  (hasCourseAccess now user q.id db).granted = false ∨
    (0 < courseLessonCount db q.id ∧
      completedLessonCountFor db user.id q.id < courseLessonCount db q.id)

instance instDecidablePrereqMissed (now : Nat) (user : User) (db : Db) (q : Course) :
    Decidable (prereqMissed now user db q) := by
  unfold prereqMissed
  exact inferInstance

lemma prereqStep_spec (now : Nat) (user : User) (db0 dbc : Db) (accM : List Course)
    (q : Course)
    (hl : dbc.lessons = db0.lessons) (hpr : dbc.progresses = db0.progresses)
    (hpq : pairRecords dbc user.id q.id = pairRecords db0 user.id q.id) :
    prereqStep now user (accM, dbc) q =
      ((if prereqMissed now user db0 q then accM ++ [q] else accM),
       (hasCourseAccess now user q.id dbc).db) := by
  have hg : (hasCourseAccess now user q.id dbc).granted =
      (hasCourseAccess now user q.id db0).granted :=
    hasCourseAccess_granted_congr now user q.id dbc db0 hpq
  have hlr : (hasCourseAccess now user q.id dbc).db.lessons = db0.lessons :=
    (hasCourseAccess_db_lessons now user q.id dbc).trans hl
  have hpp : (hasCourseAccess now user q.id dbc).db.progresses = db0.progresses :=
    (hasCourseAccess_db_progresses now user q.id dbc).trans hpr
  have ht : courseLessonCount (hasCourseAccess now user q.id dbc).db q.id =
      courseLessonCount db0 q.id :=
    courseLessonCount_congr _ _ _ hlr
  have hcc : completedLessonCountFor (hasCourseAccess now user q.id dbc).db user.id q.id =
      completedLessonCountFor db0 user.id q.id :=
    completedLessonCountFor_congr _ _ _ _ hpp hlr
  unfold prereqStep
  dsimp only
  cases hgr : (hasCourseAccess now user q.id dbc).granted with
  | false =>
    have hmiss : prereqMissed now user db0 q := Or.inl (by rw [← hg]; exact hgr)
    rw [if_pos (by rfl : (!false) = true), if_pos hmiss]
  | true =>
    rw [if_neg (by simp : ¬((!true) = true)), ht, hcc]
    by_cases hcnt : 0 < courseLessonCount db0 q.id ∧
        completedLessonCountFor db0 user.id q.id < courseLessonCount db0 q.id
    · rw [if_pos hcnt, if_pos (show prereqMissed now user db0 q from Or.inr hcnt)]
    · rw [if_neg hcnt, if_neg (show ¬prereqMissed now user db0 q from ?_)]
      rintro (hgf | hc)
      · rw [← hg, hgr] at hgf
        cases hgf
      · exact hcnt hc

lemma prereq_fold_missing (now : Nat) (user : User) (db0 : Db)
    (hnd0 : (db0.accesses.map (fun r => r.id)).Nodup) :
    ∀ (todo : List Course) (accM : List Course) (dbc : Db),
      dbc.lessons = db0.lessons → dbc.progresses = db0.progresses →
      dbc.accesses.map (fun r => r.id) = db0.accesses.map (fun r => r.id) →
      (∀ q ∈ todo, pairRecords dbc user.id q.id = pairRecords db0 user.id q.id) →
      (todo.map (fun c => c.id)).Nodup →
      (todo.foldl (prereqStep now user) (accM, dbc)).1 =
        accM ++ todo.filter (fun q => decide (prereqMissed now user db0 q)) := by
  intro todo
  induction todo with
  | nil => intro accM dbc _ _ _ _ _; simp
  | cons q rest ih =>
    intro accM dbc hl hpr hids hpair hndt
    rw [List.foldl_cons,
        prereqStep_spec now user db0 dbc accM q hl hpr (hpair q (List.mem_cons_self q rest))]
    have hnddbc : (dbc.accesses.map (fun r => r.id)).Nodup := by
      rw [hids]; exact hnd0
    have hl' : (hasCourseAccess now user q.id dbc).db.lessons = db0.lessons :=
      (hasCourseAccess_db_lessons now user q.id dbc).trans hl
    have hpr' : (hasCourseAccess now user q.id dbc).db.progresses = db0.progresses :=
      (hasCourseAccess_db_progresses now user q.id dbc).trans hpr
    have hids' : (hasCourseAccess now user q.id dbc).db.accesses.map (fun r => r.id) =
        db0.accesses.map (fun r => r.id) :=
      (hasCourseAccess_db_ids now user q.id dbc).trans hids
    have hqnotin : q.id ∉ rest.map (fun c => c.id) := (List.nodup_cons.mp hndt).1
    have hpair' : ∀ p ∈ rest,
        pairRecords (hasCourseAccess now user q.id dbc).db user.id p.id =
          pairRecords db0 user.id p.id := by
      intro p hp
      have hne : p.id ≠ q.id := by
        intro he
        exact hqnotin (he ▸ List.mem_map_of_mem (fun c => c.id) hp)
      rw [hasCourseAccess_pair_frame now user q.id dbc user.id p.id hnddbc hne]
      exact hpair p (List.mem_cons_of_mem q hp)
    have hrec := ih (if prereqMissed now user db0 q then accM ++ [q] else accM)
      (hasCourseAccess now user q.id dbc).db hl' hpr' hids' hpair'
      (List.nodup_cons.mp hndt).2
    rw [hrec, List.filter_cons]
    by_cases hmiss : prereqMissed now user db0 q
    · rw [if_pos hmiss, if_pos (by exact decide_eq_true hmiss)]
      simp
    · rw [if_neg hmiss, if_neg (by simp [hmiss])]

lemma prereq_ids_sub (db : Db) :
    ∀ (l : List Nat) (x : Nat),
      x ∈ (l.filterMap (fun i => db.courses.find? (fun c => decide (c.id = i)))).map
        (fun c => c.id) → x ∈ l := by
  intro l
  induction l with
  | nil => intro x hx; cases hx
  | cons i rest ih =>
    intro x hx
    rw [List.filterMap_cons] at hx
    cases hfind : db.courses.find? (fun c => decide (c.id = i)) with
    | none =>
      rw [hfind] at hx
      exact List.mem_cons_of_mem i (ih x hx)
    | some c0 =>
      rw [hfind] at hx
      rw [List.map_cons] at hx
      rcases List.mem_cons.mp hx with hx | hx
      · have hci : c0.id = i := by simpa using List.find?_some hfind
        rw [List.mem_cons]
        exact Or.inl (hx.trans hci)
      · exact List.mem_cons_of_mem i (ih x hx)

lemma prereq_filterMap_ids_nodup (db : Db) :
    ∀ l : List Nat, l.Nodup →
      ((l.filterMap (fun i => db.courses.find? (fun c => decide (c.id = i)))).map
        (fun c => c.id)).Nodup := by
  intro l
  induction l with
  | nil => intro _; exact List.nodup_nil
  | cons i rest ih =>
    intro h
    rw [List.filterMap_cons]
    have hni := (List.nodup_cons.mp h).1
    have hrest := (List.nodup_cons.mp h).2
    cases hfind : db.courses.find? (fun c => decide (c.id = i)) with
    | none => exact ih hrest
    | some c0 =>
      rw [List.map_cons, List.nodup_cons]
      refine ⟨?_, ih hrest⟩
      intro hmem
      have hci : c0.id = i := by simpa using List.find?_some hfind
      exact hni (hci ▸ prereq_ids_sub db rest c0.id hmem)

lemma prereqCoursesOf_ids_nodup (db : Db) (course : Course)
    (h : course.prerequisiteCourses.Nodup) :
    ((prereqCoursesOf db course).map (fun c => c.id)).Nodup := by
  unfold prereqCoursesOf
  exact prereq_filterMap_ids_nodup db course.prerequisiteCourses h

/-- C4: `check_course_prerequisites` returns met=true iff `missing` is empty;
a prerequisite lands in `missing` iff the Resolver denies access to it or it
has at least one lesson the user has not completed (so a prerequisite with
zero lessons is satisfied once access is granted, and an inaccessible
prerequisite is missing regardless of the others); a course with no
prerequisites is trivially met. -/
theorem spec_C4 (now : Nat) (user : User) (course : Course) (db : Db)
    (hnd : (db.accesses.map (fun r => r.id)).Nodup)
    (hnp : course.prerequisiteCourses.Nodup) :
    ((checkCoursePrerequisites now user course db).met = true ↔
      (checkCoursePrerequisites now user course db).missing = [])
    ∧ (∀ p ∈ prereqCoursesOf db course,
        (p ∈ (checkCoursePrerequisites now user course db).missing ↔
          ((hasCourseAccess now user p.id db).granted = false ∨
            (0 < courseLessonCount db p.id ∧
              completedLessonCountFor db user.id p.id < courseLessonCount db p.id))))
    ∧ (course.prerequisiteCourses = [] →
        (checkCoursePrerequisites now user course db).met = true ∧
        (checkCoursePrerequisites now user course db).missing = []) := by
  by_cases hpe : course.prerequisiteCourses.isEmpty = true
  · have hres : checkCoursePrerequisites now user course db = ⟨true, [], db⟩ := by
      unfold checkCoursePrerequisites
      rw [if_pos hpe]
    rw [hres]
    refine ⟨by simp, ?_, fun _ => ⟨rfl, rfl⟩⟩
    intro p hp
    have : course.prerequisiteCourses = [] := List.isEmpty_iff.mp hpe
    unfold prereqCoursesOf at hp
    rw [this] at hp
    cases hp
  · have hfold := prereq_fold_missing now user db hnd (prereqCoursesOf db course) [] db
      rfl rfl rfl (fun q _ => rfl) (prereqCoursesOf_ids_nodup db course hnp)
    have hres : (checkCoursePrerequisites now user course db).missing =
        (prereqCoursesOf db course).filter (fun q => decide (prereqMissed now user db q)) := by
      unfold checkCoursePrerequisites
      rw [if_neg hpe]
      exact hfold
    have hmet : (checkCoursePrerequisites now user course db).met =
        decide (((prereqCoursesOf db course).foldl (prereqStep now user) ([], db)).1.length = 0) := by
      unfold checkCoursePrerequisites
      rw [if_neg hpe]
    refine ⟨?_, ?_, ?_⟩
    · rw [hres, hmet, hfold]
      simp only [List.nil_append, decide_eq_true_eq, List.length_eq_zero]
    · intro p hp
      rw [hres, List.mem_filter]
      unfold prereqMissed
      simp [hp]
    · intro hnil
      exact absurd (by rw [hnil]; rfl) hpe

/-- Prerequisite A of the gated course: Alice has no access to it. -/
def courseA : Course :=
  { id := 30, name := "A", status := CourseStatus.active,
    visibility := Visibility.public, prerequisiteCourses := [] }

/-- Prerequisite B: Alice has access and has completed its single lesson. -/
def courseB : Course :=
  { id := 31, name := "B", status := CourseStatus.active,
    visibility := Visibility.public, prerequisiteCourses := [] }

/-- The course gated behind prerequisites A and B. -/
def courseX : Course :=
  { id := 32, name := "X", status := CourseStatus.active,
    visibility := Visibility.public, prerequisiteCourses := [30, 31] }

/-- Alice's grant on prerequisite B. -/
def recBGrant : AccessRecord := { recManual with id := 5, course := 31 }

/-- The single lesson of prerequisite B. -/
def lessonB1 : Lesson := { id := 310, course := 31, order := 1 }

/-- A store where B is accessible and completed but A is not accessible. -/
def dbPrereq : Db :=
  { dbEmpty with
    accesses := [recBGrant], nextId := 6,
    courses := [courseA, courseB, courseX],
    lessons := [lessonB1],
    progresses := [{ user := 1, lesson := 310, status := ProgressStatus.completed,
                     completed := true, completedAt := some 7, progressPercentage := 100 }],
    users := [uAlice, uRoot] }

/-- Witness for C4: with prerequisites [A, B], no access to A and B fully
completed, A is reported missing (hence the course is unmet). -/
theorem spec_C4_witness :
    courseA ∈ (checkCoursePrerequisites 10 uAlice courseX dbPrereq).missing := by
  have h := (spec_C4 10 uAlice courseX dbPrereq (by decide) (by decide)).2.1 courseA
    (by decide)
  exact h.mpr (Or.inl (by decide))

/-! ### C3: strict-prefix lesson reachability -/

lemma lessonBefore_irrefl (a : Lesson) : ¬ lessonBefore a a := by
  unfold lessonBefore
  rintro (h | ⟨h1, h2⟩) <;> omega

lemma lessonBefore_asymm {a b : Lesson} (h : lessonBefore a b) : ¬ lessonBefore b a := by
  unfold lessonBefore at h ⊢
  rcases h with h | ⟨h1, h2⟩ <;> rintro (h' | ⟨h1', h2'⟩) <;> omega

lemma seq_filter_take (ls : List Lesson) (hsort : ls.Pairwise lessonBefore)
    (i : Nat) (hi : i < ls.length) :
    ls.filter (fun p => decide (lessonBefore p (ls.get ⟨i, hi⟩))) = ls.take i := by
  have hpg := List.pairwise_iff_getElem.mp hsort
  have h1 : (ls.take i).filter (fun p => decide (lessonBefore p (ls.get ⟨i, hi⟩))) =
      ls.take i := by
    apply List.filter_eq_self.mpr
    intro a ha
    rcases List.mem_iff_getElem.mp ha with ⟨j, hj, hja⟩
    have hjlen : j < ls.length := by
      rw [List.length_take] at hj
      omega
    have hji : j < i := by
      rw [List.length_take] at hj
      omega
    have hav : a = ls.get ⟨j, hjlen⟩ := by
      rw [← hja, List.getElem_take]
      rfl
    rw [hav]
    exact decide_eq_true (hpg j i hjlen hi hji)
  have h2 : (ls.drop i).filter (fun p => decide (lessonBefore p (ls.get ⟨i, hi⟩))) = [] := by
    apply List.filter_eq_nil.mpr
    intro b hb
    rcases List.mem_iff_getElem.mp hb with ⟨j, hj, hjb⟩
    have hijlen : i + j < ls.length := by
      rw [List.length_drop] at hj
      omega
    have hbv : b = ls.get ⟨i + j, hijlen⟩ := by
      rw [← hjb, List.getElem_drop]
      rfl
    rw [hbv]
    simp only [decide_eq_true_eq]
    cases Nat.eq_zero_or_pos j with
    | inl hj0 =>
      subst hj0
      exact lessonBefore_irrefl (ls.get ⟨i, hi⟩)
    | inr hjpos =>
      have hlt : i < i + j := by omega
      exact lessonBefore_asymm (hpg i (i + j) hi hijlen hlt)
  calc ls.filter (fun p => decide (lessonBefore p (ls.get ⟨i, hi⟩)))
      = (ls.take i ++ ls.drop i).filter (fun p => decide (lessonBefore p (ls.get ⟨i, hi⟩))) := by
        rw [List.take_append_drop]
    _ = (ls.take i).filter (fun p => decide (lessonBefore p (ls.get ⟨i, hi⟩))) ++
        (ls.drop i).filter (fun p => decide (lessonBefore p (ls.get ⟨i, hi⟩))) :=
        List.filter_append _ _
    _ = ls.take i ++ [] := by rw [h1, h2]
    _ = ls.take i := by simp

lemma allPrevCompleted_iff (ls : List Lesson) (completed : List Nat)
    (hsort : ls.Pairwise lessonBefore) (i : Nat) (hi : i < ls.length) :
    allPrevCompleted ls (ls.get ⟨i, hi⟩) completed = true ↔
      ∀ j (hj : j < i), (ls.get ⟨j, Nat.lt_trans hj hi⟩).id ∈ completed := by
  unfold allPrevCompleted
  rw [seq_filter_take ls hsort i hi, List.all_eq_true]
  constructor
  · intro h j hj
    have hj' : j < ls.length := Nat.lt_trans hj hi
    have hmem : ls.get ⟨j, hj'⟩ ∈ ls.take i := by
      rw [List.mem_iff_getElem]
      refine ⟨j, ?_, ?_⟩
      · rw [List.length_take]
        omega
      · rw [List.getElem_take]
        rfl
    have := h _ hmem
    simpa using this
  · intro h p hp
    rcases List.mem_iff_getElem.mp hp with ⟨j, hj, hjp⟩
    rw [List.length_take] at hj
    have hji : j < i := by omega
    have hjl : j < ls.length := by omega
    have hpv : p = ls.get ⟨j, hjl⟩ := by
      rw [← hjp, List.getElem_take]
      rfl
    rw [hpv]
    exact decide_eq_true (h j hji)

lemma mem_accessible_iff (ls : List Lesson) (completed : List Nat)
    (hsort : ls.Pairwise lessonBefore) (hnd : (ls.map (fun l => l.id)).Nodup)
    (i : Nat) (hi : i < ls.length) (hpos : 0 < i) :
    (ls.get ⟨i, hi⟩).id ∈ accessibleLessons ls completed ↔
      allPrevCompleted ls (ls.get ⟨i, hi⟩) completed = true := by
  cases ls with
  | nil => simp at hi
  | cons first rest =>
    obtain ⟨i', rfl⟩ : ∃ i', i = i' + 1 := ⟨i - 1, by omega⟩
    have hrl : i' < rest.length := by
      simp only [List.length_cons] at hi
      omega
    unfold accessibleLessons
    rw [List.mem_cons]
    constructor
    · rintro (hfirst | hmap)
      · exfalso
        have hinj := @List.Nodup.getElem_inj_iff _ _ hnd
          (i' + 1) (by simpa using hi) 0 (by simp)
        simp only [List.getElem_map] at hinj
        have : i' + 1 = 0 := hinj.mp hfirst
        omega
      · rcases List.mem_map.mp hmap with ⟨b, hbf, hbid⟩
        have hbl : b ∈ first :: rest :=
          List.mem_cons_of_mem first (List.mem_of_mem_filter hbf)
        have hx : (first :: rest).get ⟨i' + 1, hi⟩ ∈ first :: rest :=
          List.get_mem (first :: rest) (i' + 1) hi
        have hbx : b = (first :: rest).get ⟨i' + 1, hi⟩ :=
          List.inj_on_of_nodup_map hnd hbl hx hbid
        rw [hbx] at hbf
        exact (List.mem_filter.mp hbf).2
    · intro hall
      right
      apply List.mem_map.mpr
      refine ⟨(first :: rest).get ⟨i' + 1, hi⟩, ?_, rfl⟩
      apply List.mem_filter.mpr
      refine ⟨?_, hall⟩
      have hxr : (first :: rest).get ⟨i' + 1, hi⟩ = rest.get ⟨i', hrl⟩ := rfl
      rw [hxr]
      exact List.get_mem rest i' hrl

/-- C3: over the canonically ordered lessons of a course (order ascending,
id ascending), the sequencer of `lesson_detail` always reaches the first
lesson; a later lesson is reachable iff every lesson strictly before it is
completed; hence reachability is a strict prefix: one incomplete lesson
blocks everything after it regardless of later completion state. -/
theorem spec_C3 (ls : List Lesson) (completed : List Nat)
    (hsort : ls.Pairwise lessonBefore)
    (hnd : (ls.map (fun l => l.id)).Nodup) :
    (∀ h : 0 < ls.length, (ls.get ⟨0, h⟩).id ∈ accessibleLessons ls completed)
    ∧ (∀ i (hi : i < ls.length), 0 < i →
        ((ls.get ⟨i, hi⟩).id ∈ accessibleLessons ls completed ↔
          ∀ j (hj : j < i), (ls.get ⟨j, Nat.lt_trans hj hi⟩).id ∈ completed))
    ∧ (∀ k i (hk : k < ls.length) (hi : i < ls.length), k < i →
        (ls.get ⟨k, hk⟩).id ∉ completed →
        (ls.get ⟨i, hi⟩).id ∉ accessibleLessons ls completed) := by
  refine ⟨?_, ?_, ?_⟩
  · intro h
    cases ls with
    | nil => simp at h
    | cons first rest => exact List.mem_cons_self first.id _
  · intro i hi hpos
    rw [mem_accessible_iff ls completed hsort hnd i hi hpos,
        allPrevCompleted_iff ls completed hsort i hi]
  · intro k i hk hi hki hkc hmem
    have hpos : 0 < i := Nat.lt_of_le_of_lt (Nat.zero_le k) hki
    have hall := (allPrevCompleted_iff ls completed hsort i hi).mp
      ((mem_accessible_iff ls completed hsort hnd i hi hpos).mp hmem)
    exact hkc (hall k hki)

/-- Three lessons of course 20 in canonical order. -/
def lOne : Lesson := { id := 1, course := 20, order := 1 }

/-- Second lesson of the fixture course. -/
def lTwo : Lesson := { id := 2, course := 20, order := 2 }

/-- Third lesson of the fixture course. -/
def lThree : Lesson := { id := 3, course := 20, order := 3 }

/-- Witness for C3: with only the first lesson completed, the second lesson
is reachable and the third is not (the strict prefix stops at lesson two). -/
theorem spec_C3_witness :
    (2 : Nat) ∈ accessibleLessons [lOne, lTwo, lThree] [1]
    ∧ (3 : Nat) ∉ accessibleLessons [lOne, lTwo, lThree] [1] := by
  have h := spec_C3 [lOne, lTwo, lThree] [1] (by decide) (by decide)
  constructor
  · exact (h.2.1 1 (by decide) (by decide)).mpr (by
      intro j hj
      interval_cases j
      exact List.mem_cons_self 1 [])
  · exact h.2.2 1 2 (by decide) (by decide) (by decide) (by decide)

end Fluentory
